import Mathlib

/-!
Verification of the trigger execution subsystem of the openerp repository:
the restricted code executor (openerp/core/executor.py), the trigger
registry (openerp/core/triggers.py) and the trigger-aware CRUD pipeline
(openerp/core/crud.py), shallowly embedded together with a model of the
SQLite storage collaborator (openerp/core/database.py).

Records are the flat rows this system stores: maps from column names to
scalar values.  Python dicts are modelled as insertion-ordered association
lists with first-match lookup and in-place replacement on re-assignment,
which matches dict lookup and update semantics on the operations used here.
Trigger snippets are untrusted Python run through RestrictedPython; they
are embedded as a small statement language covering the behaviours the
pipeline distinguishes: reading and writing fields of the record and
old_record bindings, assigning names, importing modules (allowed or not),
raising an exception, and faulting (division by zero, missing keys).
Source text that compile_restricted rejects is a separate constructor.
-/

namespace OpenErp

/-- Scalar field values stored in a row: NULL, an integer, or a string.
Floats and timestamps are carried as strings, as the pipeline never
computes with them. -/
inductive Value where
  | vnull
  | vint (n : Int)
  | vstr (s : String)
deriving DecidableEq, Repr

/-- First-match lookup in an association list, the model of Python dict
subscripting and of the `in` test. -/
def alGet {α β : Type} [DecidableEq α] : List (α × β) → α → Option β
  | [], _ => none
  | (k, v) :: rest, key => if k = key then some v else alGet rest key

/-- In-place replacement or append, the model of Python dict assignment
(dict preserves insertion order; assigning an existing key keeps its
position). -/
def alSet {α β : Type} [DecidableEq α] : List (α × β) → α → β → List (α × β)
  | [], key, val => [(key, val)]
  | (k, v) :: rest, key, val =>
      if k = key then (key, val) :: rest else (k, v) :: alSet rest key val

/-- Membership test, the model of the Python `key in dict` test. -/
def alHas {α β : Type} [DecidableEq α] (l : List (α × β)) (k : α) : Bool :=
  (alGet l k).isSome

/-- A stored row or a record under mutation: column name to scalar value. -/
abbrev Record := List (String × Value)

/-- Model of Python `d.update(u)`: every binding of u is written into d in
order, replacing existing keys in place and appending new ones. -/
def recUpdate (r u : Record) : Record :=
  u.foldl (fun acc kv => alSet acc kv.1 kv.2) r

/-- Model of Python `d.keys()` in insertion order. -/
def recKeys (r : Record) : List String := r.map Prod.fst

/-- A value bound to a name in the executor namespace: a scalar (Python
None is vnull) or a dict of scalars, such as the record and old_record
bindings. -/
inductive PyVal where
  | scalar (v : Value)
  | dict (r : Record)
deriving DecidableEq, Repr

/-- The executor namespace beyond the injected builtins: the variable
bindings handed to the snippet plus any names the snippet assigns. -/
abbrev Ctx := List (String × PyVal)

/-- The Python exception classes the embedded snippet behaviours can
raise.  The executor stores the exception object under the result key
exception and reports only str(e) in errors. -/
inductive ExcKind where
  | importError
  | userError
  | zeroDivisionError
  | keyError
  | typeError
  | nameError
  | attributeError
  | operationalError
deriving DecidableEq, Repr

/-- A raised Python exception: its class and its str(e) message. -/
structure PyExc where
  kind : ExcKind
  msg : String
deriving DecidableEq, Repr

/-- Decidable equality of Except results of the embedded calls. -/
instance {ε α : Type} [DecidableEq ε] [DecidableEq α] :
    DecidableEq (Except ε α) := fun x y =>
  match x, y with
  | .ok a, .ok b =>
      if h : a = b then .isTrue (by rw [h]) else .isFalse (by simp [h])
  | .error a, .error b =>
      if h : a = b then .isTrue (by rw [h]) else .isFalse (by simp [h])
  | .ok _, .error _ => .isFalse (by simp)
  | .error _, .ok _ => .isFalse (by simp)

/-- Expressions of the embedded snippet language. -/
inductive Expr where
  | lit (v : Value)
  | name (x : String)
  | item (x : String) (key : String)
  | lower (e : Expr)
  | add (a b : Expr)
  | div (a b : Expr)
deriving DecidableEq, Repr

/-- Statements of the embedded snippet language: name assignment, item
assignment on a dict-bound name, an import statement, and raising an
exception with a message (the business-rule rejection channel). -/
inductive Stmt where
  | assignName (x : String) (e : Expr)
  | assignItem (x : String) (key : String) (e : Expr)
  | importMod (m : String)
  | raiseMsg (msg : String)
deriving DecidableEq, Repr

/-- Trigger source text as the executor sees it: either code that
compile_restricted accepts, abstracted as a statement list, or source
that compile_restricted rejects (syntax error or statically forbidden
construct), carrying the compile error message. -/
inductive Source where
  | ok (stmts : List Stmt)
  | invalid (msg : String)
deriving DecidableEq, Repr

/-- The module allow-list of safe_import in executor.py. -/
def safe_modules : List String :=
  ["re", "datetime", "json", "math", "decimal", "uuid", "time"]

/-- Expression evaluation.  Reading a missing name raises NameError, a
missing dict key raises KeyError, subscripting a scalar raises TypeError,
division by zero raises ZeroDivisionError; lower is the string method used
by normalisation triggers.  Integer division stands in for the numeric
operator; only its fault behaviour matters here. -/
def evalExpr (env : Ctx) : Expr → Except PyExc PyVal
  | .lit v => .ok (.scalar v)
  | .name x =>
      match alGet env x with
      | some v => .ok v
      | none => .error ⟨.nameError, "name " ++ x ++ " is not defined"⟩
  | .item x key =>
      match alGet env x with
      | some (.dict r) =>
          match alGet r key with
          | some v => .ok (.scalar v)
          | none => .error ⟨.keyError, key⟩
      | some (.scalar _) => .error ⟨.typeError, "object is not subscriptable"⟩
      | none => .error ⟨.nameError, "name " ++ x ++ " is not defined"⟩
  | .lower e => do
      match ← evalExpr env e with
      | .scalar (.vstr s) => .ok (.scalar (.vstr s.toLower))
      | _ => .error ⟨.typeError, "lower requires a string"⟩
  | .add a b => do
      match ← evalExpr env a, ← evalExpr env b with
      | .scalar (.vint m), .scalar (.vint n) => .ok (.scalar (.vint (m + n)))
      | .scalar (.vstr s), .scalar (.vstr t) => .ok (.scalar (.vstr (s ++ t)))
      | _, _ => .error ⟨.typeError, "unsupported operand types for add"⟩
  | .div a b => do
      match ← evalExpr env a, ← evalExpr env b with
      | .scalar (.vint _), .scalar (.vint 0) =>
          .error ⟨.zeroDivisionError, "division by zero"⟩
      | .scalar (.vint m), .scalar (.vint n) => .ok (.scalar (.vint (m / n)))
      | _, _ => .error ⟨.typeError, "unsupported operand types for div"⟩

/-- Statement execution over the executor namespace.  An import of a
module outside the allow-list raises ImportError with the message built
by safe_import (quote marks around the module name omitted); an
allowed import is a no-op as no claim reads the module object.  raise
carries the snippet message. -/
def execStmt (env : Ctx) : Stmt → Except PyExc Ctx
  | .assignName x e =>
      match evalExpr env e with
      | .error ex => .error ex
      | .ok v => .ok (alSet env x v)
  | .assignItem x key e =>
      match evalExpr env e with
      | .error ex => .error ex
      | .ok v =>
        match alGet env x with
        | some (.dict r) =>
            match v with
            | .scalar s => .ok (alSet env x (.dict (alSet r key s)))
            | .dict _ => .error ⟨.typeError, "nested dict values are not modelled"⟩
        | some (.scalar _) =>
            .error ⟨.typeError, "object does not support item assignment"⟩
        | none => .error ⟨.nameError, "name " ++ x ++ " is not defined"⟩
  | .importMod m =>
      if m ∈ safe_modules then .ok env
      else .error ⟨.importError, "Import of module " ++ m ++ " is not allowed"⟩
  | .raiseMsg msg => .error ⟨.userError, msg⟩

/-- Sequential execution of a statement list; the first uncaught
exception aborts the rest, as exec does. -/
def execStmts : Ctx → List Stmt → Except PyExc Ctx
  | env, [] => .ok env
  | env, s :: rest =>
      match execStmt env s with
      | .error e => .error e
      | .ok env' => execStmts env' rest

/-- Keys of the injected globals that the result-context filter of
execute removes, standing in for membership in safe_builtins (the module
bindings; the RestrictedPython guard names all start with an underscore
and are caught by the underscore filter, like in the source). -/
def builtin_names : List String := ["datetime", "pytz"]

/-- The dictionary execute returns: success flag, error message list,
resulting context, and on the runtime-fault path the exception object
itself (absent on the compile-error path, as in the source). -/
structure ExecResult where
  success : Bool
  errors : List String
  context : Ctx
  exception : Option PyExc := none
deriving DecidableEq, Repr

/-- The test k.startswith of the underscore prefix, written over the
character list so that it computes by unfolding. -/
def startsWithUnderscore (s : String) : Bool :=
  match s.data with
  | [] => false
  | c :: _ => c = '_'

/-- The result-context comprehension of execute: every binding whose key
is not among the injected builtins and does not start with an
underscore. -/
def resultContext (env : Ctx) : Ctx :=
  env.filter (fun kv => !(startsWithUnderscore kv.1) && !(builtin_names.contains kv.1))

namespace CodeExecutor

/-- CodeExecutor.execute in exec mode: compile (returning the compile
errors with the original context when compile_restricted rejects), run
the statements over the namespace seeded with the caller context, and on
success return the filtered context; every uncaught exception is caught
and reported as success false with errors equal to the singleton str(e),
the original context, and the exception object. -/
def execute (code : Source) (context : Ctx) : ExecResult :=
  match code with
  | .invalid msg => { success := false, errors := [msg], context := context }
  | .ok stmts =>
      match execStmts context stmts with
      | .ok env => { success := true, errors := [], context := resultContext env }
      | .error e =>
          { success := false, errors := [e.msg], context := context, exception := some e }

/-- The dictionary validate_code returns. -/
structure ValidateResult where
  valid : Bool
  errors : List String
deriving DecidableEq, Repr

/-- CodeExecutor.validate_code: static compilation only, no execution. -/
def validate_code (code : Source) : ValidateResult :=
  match code with
  | .invalid msg => { valid := false, errors := [msg] }
  | .ok _ => { valid := true, errors := [] }

end CodeExecutor

/-- The TriggerType enum of triggers.py. -/
inductive TriggerType where
  | on_insert
  | on_update
  | on_delete
deriving DecidableEq, Repr

/-- The inner dict of the trigger registry: trigger type to source. -/
abbrev TriggerMap := List (TriggerType × Source)

/-- The backing map of TriggerManager: table name to its trigger dict. -/
abbrev Registry := List (String × TriggerMap)

/-- TriggerManager state: the nested dict held in the attribute
written _triggers in the source. -/
structure TriggerManager where
  triggers : Registry := []
deriving DecidableEq, Repr

/-- The old_record entry of the execution context built by
execute_trigger: the value copy of the old record, or None when
old_record is None or empty (the truthiness test in the source). -/
def oldRecordBinding : Option Record → PyVal
  | some o => if o.isEmpty then .scalar .vnull else .dict o
  | none => .scalar .vnull

/-- The execution context built by execute_trigger: copies of the
record and of the old record under the two binding names. -/
def triggerContext (record : Record) (old_record : Option Record) : Ctx :=
  [("record", PyVal.dict record), ("old_record", oldRecordBinding old_record)]

/-- The dict.get extraction of the modified record from the executor
result: the value bound to record in the result context, whatever its
type (a snippet may rebind the name to a non-dict, and that value is
returned as-is), or the argument record when the binding is absent. -/
def extractRecord (res : ExecResult) (fallback : Record) : PyVal :=
  (alGet res.context "record").getD (PyVal.dict fallback)

namespace TriggerManager

/-- TriggerManager.register_trigger.  Faithful to the statement order of
the source: the empty inner dict for a previously unseen table is created
before validation runs, then validate_code is consulted, and on failure a
ValueError is raised (modelled as the Except.error component) with the
registry left in that intermediate state; on success the code is stored
under the key pair.  The returned manager is the object state when the
call finishes or the exception leaves it. -/
def register_trigger (tm : TriggerManager) (table_name : String)
    (trigger_type : TriggerType) (code : Source) :
    Except String Unit × TriggerManager :=
  let reg1 : Registry :=
    if alHas tm.triggers table_name then tm.triggers
    else alSet tm.triggers table_name []
  let validation := CodeExecutor.validate_code code
  if !validation.valid then
    (.error ("Invalid trigger code: " ++ String.intercalate ", " validation.errors),
     ⟨reg1⟩)
  else
    (.ok (),
     ⟨alSet reg1 table_name (alSet ((alGet reg1 table_name).getD []) trigger_type code)⟩)

/-- The dictionary execute_trigger returns (the errors key is absent on
the no-trigger path in the source; the default stands for absence).
The record entry is a PyVal: it is the argument dict on the no-trigger
and failure paths, and the dict.get extraction from the result context
on success, which a snippet rebinding the record name can make a
non-dict. -/
structure TriggerResult where
  success : Bool
  record : PyVal
  errors : List String := []
  executed : Bool
deriving DecidableEq, Repr

/-- TriggerManager.execute_trigger: no registered trigger reports
executed false with the record passed through; otherwise the snippet
runs over the context holding copies of the record and old record
(dict copies are value copies here).  On executor failure the errors
propagate with the unmodified record; on success the record binding of
the result context is extracted. -/
def execute_trigger (tm : TriggerManager) (table_name : String)
    (trigger_type : TriggerType) (record : Record)
    (old_record : Option Record := none) : TriggerResult :=
  match alGet tm.triggers table_name with
  | none => { success := true, record := .dict record, executed := false }
  | some tmap =>
    match alGet tmap trigger_type with
    | none => { success := true, record := .dict record, executed := false }
    | some code =>
      let result := CodeExecutor.execute code (triggerContext record old_record)
      if !result.success then
        { success := false, errors := result.errors, record := .dict record,
          executed := true }
      else
        { success := true, record := extractRecord result record,
          errors := [], executed := true }

/-- TriggerManager.has_trigger. -/
def has_trigger (tm : TriggerManager) (table_name : String)
    (trigger_type : TriggerType) : Bool :=
  match alGet tm.triggers table_name with
  | some tmap => alHas tmap trigger_type
  | none => false

/-- TriggerManager.get_trigger. -/
def get_trigger (tm : TriggerManager) (table_name : String)
    (trigger_type : TriggerType) : Option Source :=
  if tm.has_trigger table_name trigger_type then
    match alGet tm.triggers table_name with
    | some tmap => alGet tmap trigger_type
    | none => none
  else none

end TriggerManager

/-- A column of a created table.  Tables built by create_table in
database.py always consist of an INTEGER PRIMARY KEY AUTOINCREMENT column
named id, the user fields (NOT NULL when declared so), and the audit
columns created_at and updated_at with a CURRENT_TIMESTAMP default; the
clock-dependent default is carried as a fixed schema value here. -/
structure Column where
  name : String
  notNull : Bool := false
  dflt : Option Value := none
deriving DecidableEq, Repr

/-- A stored table: its schema, its rows (each row holds every column in
schema order), the AUTOINCREMENT sequence (largest rowid ever assigned),
and the three trigger source columns of the metadata row for this table
(on_insert_trigger, on_update_trigger, on_delete_trigger). -/
structure Table where
  columns : List Column
  rows : List Record := []
  seq : Int := 0
  on_insert_trigger : Option Source := none
  on_update_trigger : Option Source := none
  on_delete_trigger : Option Source := none
deriving DecidableEq, Repr

/-- The storage collaborator state: table name to table, in metadata
order (list_tables reads the metadata table in insertion order). -/
abbrev DB := List (String × Table)

/-- Column names of a table in schema order. -/
def columnNames (t : Table) : List String := t.columns.map Column.name

/-- Largest id currently in the table, 0 when empty. -/
def maxRowId (t : Table) : Int :=
  t.rows.foldl
    (fun (m : Int) (row : Record) =>
      match alGet row "id" with
      | some (Value.vint i) => max m i
      | _ => m) 0

/-- The value one schema column takes on an INSERT naming the fields of
r: the supplied value, else the column default, else NULL; a NOT NULL
column with neither raises the constraint error, as does an explicit
NULL on a NOT NULL column. -/
def columnValue (r : Record) (c : Column) : Except String Value :=
  match alGet r c.name with
  | some v =>
      if (v == Value.vnull) && c.notNull then
        .error ("NOT NULL constraint failed: " ++ c.name)
      else .ok v
  | none =>
      match c.dflt with
      | some d => .ok d
      | none =>
          if c.notNull then .error ("NOT NULL constraint failed: " ++ c.name)
          else .ok Value.vnull

/-- Build the stored row for an INSERT, column by column in schema
order; the id column always holds the rowid being assigned. -/
def buildRow (r : Record) (rowid : Int) : List Column → Except String Record
  | [] => .ok []
  | c :: rest =>
      if c.name = "id" then
        match buildRow r rowid rest with
        | .error e => .error e
        | .ok row => .ok (("id", Value.vint rowid) :: row)
      else
        match columnValue r c with
        | .error e => .error e
        | .ok v =>
          match buildRow r rowid rest with
          | .error e => .error e
          | .ok row => .ok ((c.name, v) :: row)

/-- The rowid the engine assigns for one INSERT: an integer supplied
for the id column is used when free (an INTEGER PRIMARY KEY names the
rowid, so an explicit value in the column list is honoured) and
collides otherwise; with id absent or NULL the engine assigns one more
than the largest rowid ever used (AUTOINCREMENT).  Numeric-string
coercion for the id column is not modelled. -/
def assignRowid (t : Table) (r : Record) : Except String Int :=
  match alGet r "id" with
  | some (.vint v) =>
      if t.rows.any (fun row => alGet row "id" == some (Value.vint v))
      then .error "UNIQUE constraint failed: id"
      else .ok v
  | some .vnull => .ok (max t.seq (maxRowId t) + 1)
  | some (.vstr _) => .error "datatype mismatch"
  | none => .ok (max t.seq (maxRowId t) + 1)

/-- The INSERT statement the pipeline issues, under SQLite semantics
for these tables: unknown columns and constraint violations are errors;
otherwise the engine assigns the rowid, builds the stored row from the
supplied fields and the schema defaults, and appends it.  The returned
integer is cursor.lastrowid. -/
def dbInsert (db : DB) (table_name : String) (r : Record) :
    Except String (Int × DB) :=
  match alGet db table_name with
  | none => .error ("no such table: " ++ table_name)
  | some t =>
    match (recKeys r).find? (fun k => !((columnNames t).contains k)) with
    | some k => .error ("table " ++ table_name ++ " has no column named " ++ k)
    | none =>
      match assignRowid t r with
      | .error e => .error e
      | .ok rowid =>
        match buildRow r rowid t.columns with
        | .error e => .error e
        | .ok row =>
            .ok (rowid,
                 alSet db table_name
                   { t with rows := t.rows ++ [row], seq := max t.seq rowid })

/-- The UPDATE statement the pipeline issues: SET each given field on the
row whose id matches.  An empty field set makes the generated SET clause
empty, which SQLite rejects as a syntax error; unknown columns and NOT
NULL violations are errors; a WHERE that matches no row succeeds with no
change. -/
def dbUpdate (db : DB) (table_name : String) (fields : Record)
    (record_id : Int) : Except String DB :=
  if fields.isEmpty then .error "SQL syntax error: empty SET clause"
  else
    match alGet db table_name with
    | none => .error ("no such table: " ++ table_name)
    | some t =>
      match (recKeys fields).find? (fun k => !((columnNames t).contains k)) with
      | some k => .error ("no such column: " ++ k)
      | none =>
        match fields.find? (fun kv =>
            kv.2 == Value.vnull &&
            t.columns.any (fun c => c.name == kv.1 && c.notNull)) with
        | some kv => .error ("NOT NULL constraint failed: " ++ kv.1)
        | none =>
            .ok (alSet db table_name
              { t with rows := t.rows.map (fun row =>
                  if alGet row "id" == some (Value.vint record_id)
                  then recUpdate row fields else row) })

/-- The DELETE statement the pipeline issues: remove the row whose id
matches; no matching row still succeeds. -/
def dbDelete (db : DB) (table_name : String) (record_id : Int) :
    Except String DB :=
  match alGet db table_name with
  | none => .error ("no such table: " ++ table_name)
  | some t =>
      .ok (alSet db table_name
        { t with rows := t.rows.filter (fun row =>
            !(alGet row "id" == some (Value.vint record_id))) })

/-- CRUDManager state: the database and the trigger manager. -/
structure CRUDManager where
  db : DB
  trigger_manager : TriggerManager
deriving DecidableEq, Repr

open TriggerManager in
/-- One iteration step of the metadata loop body in
_load_triggers_from_metadata: register the trigger column when it is
set (the truthiness test on the metadata value); a NULL column is
skipped.  A raised ValueError propagates with the manager in its state
at the raise. -/
def loadOne (tm : TriggerManager) (table_name : String) (tt : TriggerType)
    (code : Option Source) : Except String Unit × TriggerManager :=
  match code with
  | none => (.ok (), tm)
  | some src => tm.register_trigger table_name tt src

/-- The per-table body of _load_triggers_from_metadata: the three
trigger columns are registered in order on_insert, on_update, on_delete,
stopping at the first raised error. -/
def loadTable (tm : TriggerManager) (table_name : String) (t : Table) :
    Except String Unit × TriggerManager :=
  match loadOne tm table_name .on_insert t.on_insert_trigger with
  | (.error e, tm1) => (.error e, tm1)
  | (.ok _, tm1) =>
    match loadOne tm1 table_name .on_update t.on_update_trigger with
    | (.error e, tm2) => (.error e, tm2)
    | (.ok _, tm2) => loadOne tm2 table_name .on_delete t.on_delete_trigger

/-- CRUDManager._load_triggers_from_metadata: iterate list_tables in
order, registering every non-NULL trigger column of each metadata row
into the trigger manager. -/
def loadTriggersFromMetadata (db : DB) (tm : TriggerManager) :
    Except String Unit × TriggerManager :=
  match db with
  | [] => (.ok (), tm)
  | (name, t) :: rest =>
    match loadTable tm name t with
    | (.error e, tm1) => (.error e, tm1)
    | (.ok _, tm1) => loadTriggersFromMetadata rest tm1

namespace CRUDManager

/-- CRUDManager.reload_triggers: re-run the metadata load over the
current database against the current trigger manager. -/
def reload_triggers (c : CRUDManager) : Except String Unit × CRUDManager :=
  let r := loadTriggersFromMetadata c.db c.trigger_manager
  (r.1, { c with trigger_manager := r.2 })

/-- The dictionary get_by_id returns. -/
structure GetResult where
  success : Bool
  record : Option Record := none
  errors : List String := []
deriving DecidableEq, Repr

/-- CRUDManager.get_by_id: SELECT the row by id.  The cursor.execute
call is outside any try block in the source, so a failing SELECT (for
example a nonexistent table) raises past the caller; that raise is the
Except.error component. -/
def get_by_id (c : CRUDManager) (table_name : String) (record_id : Int) :
    Except PyExc GetResult :=
  match alGet c.db table_name with
  | none => .error ⟨.operationalError, "no such table: " ++ table_name⟩
  | some t =>
    match t.rows.find? (fun row => alGet row "id" == some (Value.vint record_id)) with
    | some row => .ok { success := true, record := some row }
    | none =>
        .ok { success := false,
              errors := ["Record with id " ++ toString record_id ++ " not found"] }

/-- The dictionary insert returns (the source stores an explicit None
under the id key on failure paths; Option none covers it). -/
structure InsertResult where
  success : Bool
  errors : List String := []
  id : Option Int := none
  record : Option Record := none
  trigger_executed : Option Bool := none
deriving DecidableEq, Repr

/-- CRUDManager.insert: run the ON_INSERT trigger; on trigger failure
return the errors with no persistence; otherwise INSERT the fields of
the trigger-returned record, write cursor.lastrowid into its id key, and
return it; a storage error is caught and returned as a failure value.
The keys() call that builds the column list stands outside the try
block in the source, so when a snippet has rebound record to a
non-dict it raises AttributeError past the caller (the Except.error
component). -/
def insert (c : CRUDManager) (table_name : String) (record : Record) :
    Except PyExc (InsertResult × CRUDManager) :=
  let trigger_result :=
    c.trigger_manager.execute_trigger table_name .on_insert record
  if !trigger_result.success then
    .ok ({ success := false, errors := trigger_result.errors }, c)
  else
    match trigger_result.record with
    | .scalar _ => .error ⟨.attributeError, "object has no attribute keys"⟩
    | .dict modified_record =>
      match dbInsert c.db table_name modified_record with
      | .ok (inserted_id, db2) =>
          .ok ({ success := true, id := some inserted_id,
                 record := some (alSet modified_record "id" (Value.vint inserted_id)),
                 trigger_executed := some trigger_result.executed },
               { c with db := db2 })
      | .error e => .ok ({ success := false, errors := [e] }, c)

/-- The dictionary update returns. -/
structure UpdateResult where
  success : Bool
  errors : List String := []
  record : Option Record := none
  trigger_executed : Option Bool := none
deriving DecidableEq, Repr

/-- The changed-field comprehension of update: every binding of the
post-trigger record except id and created_at whose key is absent from
the old record or maps there to a different value. -/
def computeFieldsToUpdate (modified_record old_record : Record) : Record :=
  modified_record.filter (fun kv =>
    !(kv.1 == "id") && !(kv.1 == "created_at") &&
    (!(alHas old_record kv.1) || !(alGet old_record kv.1 == some kv.2)))

/-- CRUDManager.update: fetch the old row (a not-found result is
returned as-is, a raising SELECT propagates), merge the requested
changes over a copy of it, stamp updated_at with
datetime.now().isoformat() (the nondeterministic clock is the now
parameter), run the ON_UPDATE trigger over the merged record with the
old row as old_record, and on success UPDATE exactly the changed
fields; trigger failures and storage errors are returned as values.
The items() call of the changed-field comprehension stands outside the
try block, so a snippet that has rebound record to a non-dict makes it
raise AttributeError past the caller. -/
def update (c : CRUDManager) (table_name : String) (record_id : Int)
    (updates : Record) (now : String) :
    Except PyExc (UpdateResult × CRUDManager) :=
  match c.get_by_id table_name record_id with
  | .error e => .error e
  | .ok old_result =>
    if !old_result.success then
      .ok ({ success := false, errors := old_result.errors }, c)
    else
      let old_record := old_result.record.getD []
      let new_record :=
        alSet (recUpdate old_record updates) "updated_at" (Value.vstr now)
      let trigger_result :=
        c.trigger_manager.execute_trigger table_name .on_update new_record
          (some old_record)
      if !trigger_result.success then
        .ok ({ success := false, errors := trigger_result.errors }, c)
      else
        match trigger_result.record with
        | .scalar _ => .error ⟨.attributeError, "object has no attribute items"⟩
        | .dict modified_record =>
          let fields_to_update := computeFieldsToUpdate modified_record old_record
          match dbUpdate c.db table_name fields_to_update record_id with
          | .ok db2 =>
              .ok ({ success := true, record := some modified_record,
                     trigger_executed := some trigger_result.executed },
                   { c with db := db2 })
          | .error e => .ok ({ success := false, errors := [e] }, c)

/-- The dictionary delete returns. -/
structure DeleteResult where
  success : Bool
  errors : List String := []
  deleted_record : Option Record := none
  trigger_executed : Option Bool := none
deriving DecidableEq, Repr

/-- CRUDManager.delete: fetch the row (not-found returned as-is,
raising SELECT propagates), run the ON_DELETE trigger over it with
itself as old_record, and on success DELETE the row, returning the
fetched pre-deletion snapshot; the trigger-returned record is not
consulted. -/
def delete (c : CRUDManager) (table_name : String) (record_id : Int) :
    Except PyExc (DeleteResult × CRUDManager) :=
  match c.get_by_id table_name record_id with
  | .error e => .error e
  | .ok old_result =>
    if !old_result.success then
      .ok ({ success := false, errors := old_result.errors }, c)
    else
      let old_record := old_result.record.getD []
      let trigger_result :=
        c.trigger_manager.execute_trigger table_name .on_delete old_record
          (some old_record)
      if !trigger_result.success then
        .ok ({ success := false, errors := trigger_result.errors }, c)
      else
        match dbDelete c.db table_name record_id with
        | .ok db2 =>
            .ok ({ success := true, deleted_record := some old_record,
                   trigger_executed := some trigger_result.executed },
                 { c with db := db2 })
        | .error e => .ok ({ success := false, errors := [e] }, c)

end CRUDManager

/-- Lookup of the registry backing map through both dict levels: the
code stored for a table and trigger type, if any. -/
def regLookup (reg : Registry) (table_name : String)
    (trigger_type : TriggerType) : Option Source :=
  match alGet reg table_name with
  | some tmap => alGet tmap trigger_type
  | none => none

/-- The trigger column of a metadata row for one trigger type. -/
def tblTrig (t : Table) : TriggerType → Option Source
  | .on_insert => t.on_insert_trigger
  | .on_update => t.on_update_trigger
  | .on_delete => t.on_delete_trigger

/-- Whether some statement of the snippet assigns the given bare name
(item assignment does not rebind the name). -/
def assignsName (stmts : List Stmt) (x : String) : Bool :=
  stmts.any (fun s => match s with
    | .assignName y _ => y == x
    | _ => false)

/-- A registry holding a single snippet under one table and trigger
type. -/
def tmOf (table_name : String) (trigger_type : TriggerType)
    (code : Source) : TriggerManager :=
  ⟨[(table_name, [(trigger_type, code)])]⟩

section Scenarios

/-- Schema of the sample customers table: the implicit id primary key,
a NOT NULL name, a nullable email, and the audit columns whose
CURRENT_TIMESTAMP default is frozen to the string T0. -/
def custCols : List Column :=
  [⟨"id", false, none⟩, ⟨"name", true, none⟩, ⟨"email", false, none⟩,
   ⟨"created_at", false, some (Value.vstr "T0")⟩,
   ⟨"updated_at", false, some (Value.vstr "T0")⟩]

/-- A stored customers row with id 1. -/
def row1 : Record :=
  [("id", Value.vint 1), ("name", Value.vstr "John"),
   ("email", Value.vstr "j@x.com"),
   ("created_at", Value.vstr "T0"), ("updated_at", Value.vstr "T0")]

/-- A snippet that signals a business-rule rejection. -/
def rejectCode : Source := .ok [Stmt.raiseMsg "rejected"]

/-- A registry whose customers table rejects all three events. -/
def tmFail : TriggerManager :=
  ⟨[("customers",
     [(.on_insert, rejectCode), (.on_update, rejectCode),
      (.on_delete, rejectCode)])]⟩

/-- A one-table database holding the single customers row. -/
def dbA : DB :=
  [("customers", { columns := custCols, rows := [row1], seq := 1 })]

/-- The pipeline over dbA with the all-rejecting registry. -/
def cA : CRUDManager := { db := dbA, trigger_manager := tmFail }

/-- An insert trigger that assigns the primary key field of the
record. -/
def idCode : Source :=
  .ok [Stmt.assignItem "record" "id" (Expr.lit (Value.vint 999))]

/-- The pipeline over dbA whose insert trigger assigns id 999. -/
def cB : CRUDManager :=
  { db := dbA, trigger_manager := tmOf "customers" .on_insert idCode }

/-- An update trigger that writes the old updated_at value back over
the refreshed timestamp. -/
def resetCode : Source :=
  .ok [Stmt.assignItem "record" "updated_at" (Expr.item "old_record" "updated_at")]

/-- The pipeline over dbA with the timestamp-resetting update
trigger. -/
def cC : CRUDManager :=
  { db := dbA, trigger_manager := tmOf "customers" .on_update resetCode }

/-- A capability-violating snippet: import of a module off the
allow-list. -/
def impCode : Source := .ok [Stmt.importMod "os"]

/-- A business-rule rejection whose message happens to match the
ImportError text of the capability violation. -/
def raiseSameCode : Source :=
  .ok [Stmt.raiseMsg "Import of module os is not allowed"]

/-- Schema of the sample accounts table used for the balance-update
example of the spec. -/
def acctCols : List Column :=
  [⟨"id", false, none⟩, ⟨"balance", false, none⟩,
   ⟨"created_at", false, some (Value.vstr "T0")⟩,
   ⟨"updated_at", false, some (Value.vstr "T0")⟩]

/-- The stored accounts row with balance 100. -/
def acctRow : Record :=
  [("id", Value.vint 1), ("balance", Value.vint 100),
   ("created_at", Value.vstr "T0"), ("updated_at", Value.vstr "T0")]

/-- The accounts database of the balance example. -/
def dbAcct : DB :=
  [("accounts", { columns := acctCols, rows := [acctRow], seq := 1 })]

/-- The pipeline over the accounts database whose update trigger is a
registered no-op snippet, which in particular does not touch
balance. -/
def cAcct : CRUDManager :=
  { db := dbAcct, trigger_manager := tmOf "accounts" .on_update (.ok []) }

/-- A pipeline over dbA with an empty trigger registry. -/
def cNoTrig : CRUDManager := { db := dbA, trigger_manager := ⟨[]⟩ }

/-- A metadata state declaring insert and update triggers for the
customers table, used to exercise the metadata reload. -/
def dbMeta : DB :=
  [("customers",
    { columns := custCols, rows := [],
      on_insert_trigger := some rejectCode,
      on_update_trigger := some idCode })]

/-- The pipeline over dbMeta with an initially empty registry, used to
exercise reload_triggers. -/
def cMeta : CRUDManager := { db := dbMeta, trigger_manager := ⟨[]⟩ }

/-- The result pair of the counterexample insert run of cB, used by the
witness of the amended C3 statement. -/
def cBrun : CRUDManager.InsertResult × CRUDManager :=
  match cB.insert "customers" [("name", Value.vstr "X")] with
  | .ok p => p
  | .error _ => ({ success := false }, cB)

/-- The pipeline over dbA whose delete trigger rewrites the name field
of its record binding (and succeeds). -/
def cDel : CRUDManager :=
  { db := dbA,
    trigger_manager := tmOf "customers" .on_delete
      (.ok [Stmt.assignItem "record" "name" (Expr.lit (Value.vstr "EVIL"))]) }

/-- The result pair of the cDel delete run, used by the C10 witness. -/
def cDelRun : CRUDManager.DeleteResult × CRUDManager :=
  match cDel.delete "customers" 1 with
  | .ok p => p
  | .error _ => ({ success := false }, cDel)

/-- A pipeline over an empty customers table whose only trigger is a
failing ON_INSERT snippet. -/
def cInsOnly : CRUDManager :=
  { db := [("customers", { columns := custCols, rows := [], seq := 0 })],
    trigger_manager := tmOf "customers" .on_insert rejectCode }

/-- A snippet that rebinds the bare name record to the integer 5. -/
def srcScalar : Source :=
  .ok [Stmt.assignName "record" (Expr.lit (Value.vint 5))]

/-- The pipeline over dbA whose insert and update triggers rebind the
record name to a plain integer. -/
def cScalar : CRUDManager :=
  { db := dbA,
    trigger_manager :=
      ⟨[("customers", [(.on_insert, srcScalar), (.on_update, srcScalar)])]⟩ }


end Scenarios

/-! Association-list facts shared by the claim proofs. -/

theorem alGet_alSet {α β : Type} [DecidableEq α] (l : List (α × β)) (k : α)
    (v : β) (k' : α) :
    alGet (alSet l k v) k' = if k = k' then some v else alGet l k' := by
  induction l with
  | nil => by_cases h : k = k' <;> simp [alSet, alGet, h]
  | cons hd tl ih =>
    obtain ⟨k0, v0⟩ := hd
    by_cases h0 : k0 = k
    · subst h0
      by_cases h : k0 = k' <;> simp [alSet, alGet, h]
    · by_cases h : k0 = k'
      · subst h
        have hkk : ¬ k = k0 := fun hh => h0 hh.symm
        simp [alSet, alGet, h0, hkk]
      · simp [alSet, alGet, h0, h, ih]

theorem alGet_alSet_self {α β : Type} [DecidableEq α] (l : List (α × β))
    (k : α) (v : β) : alGet (alSet l k v) k = some v := by
  simp [alGet_alSet]

theorem alSet_self {α β : Type} [DecidableEq α] {l : List (α × β)} {k : α}
    {v : β} (h : alGet l k = some v) : alSet l k v = l := by
  induction l with
  | nil => simp [alGet] at h
  | cons hd tl ih =>
    obtain ⟨k0, v0⟩ := hd
    by_cases h0 : k0 = k
    · subst h0
      simp [alGet] at h
      simp [alSet, h]
    · simp [alGet, h0] at h
      simp [alSet, h0, ih h]

theorem alGet_mem {α β : Type} [DecidableEq α] {l : List (α × β)} {k : α}
    {v : β} (h : alGet l k = some v) : (k, v) ∈ l := by
  induction l with
  | nil => simp [alGet] at h
  | cons hd tl ih =>
    obtain ⟨k0, v0⟩ := hd
    by_cases h0 : k0 = k
    · subst h0
      simp [alGet] at h
      simp [h]
    · simp [alGet, h0] at h
      simp [ih h]

/-! Reduction facts for execute_trigger. -/

theorem has_trigger_iff_found {tm : TriggerManager} {table : String}
    {tt : TriggerType} :
    tm.has_trigger table tt = true ↔
      ∃ tmap code, alGet tm.triggers table = some tmap ∧
        alGet tmap tt = some code := by
  unfold TriggerManager.has_trigger alHas
  cases hga : alGet tm.triggers table with
  | none => simp [hga]
  | some tmap =>
    simp only [hga]
    cases hgb : alGet tmap tt with
    | none => simp [hgb]
    | some code => simp [hgb]

theorem execute_trigger_no_trigger {tm : TriggerManager} {table : String}
    {tt : TriggerType} (h : tm.has_trigger table tt = false)
    (r : Record) (old : Option Record) :
    tm.execute_trigger table tt r old =
      { success := true, record := .dict r, executed := false } := by
  unfold TriggerManager.execute_trigger
  unfold TriggerManager.has_trigger alHas at h
  cases hga : alGet tm.triggers table with
  | none => simp [hga]
  | some tmap =>
    simp only [hga] at h ⊢
    cases hgb : alGet tmap tt with
    | none => simp [hgb]
    | some code => simp [hgb] at h

theorem execute_trigger_found {tm : TriggerManager} {table : String}
    {tt : TriggerType} {tmap : TriggerMap} {code : Source}
    (hga : alGet tm.triggers table = some tmap)
    (hgb : alGet tmap tt = some code)
    (r : Record) (old : Option Record) :
    tm.execute_trigger table tt r old =
      (if !(CodeExecutor.execute code (triggerContext r old)).success then
        { success := false,
          errors := (CodeExecutor.execute code (triggerContext r old)).errors,
          record := .dict r, executed := true }
      else
        { success := true,
          record := extractRecord (CodeExecutor.execute code (triggerContext r old)) r,
          errors := [], executed := true }) := by
  unfold TriggerManager.execute_trigger
  simp only [hga, hgb]

theorem execute_trigger_eq_regLookup (tm : TriggerManager) (table : String)
    (tt : TriggerType) (r : Record) (old : Option Record) :
    tm.execute_trigger table tt r old =
      (match regLookup tm.triggers table tt with
       | none => { success := true, record := .dict r, executed := false }
       | some code =>
          if !(CodeExecutor.execute code (triggerContext r old)).success then
            { success := false,
              errors := (CodeExecutor.execute code (triggerContext r old)).errors,
              record := .dict r, executed := true }
          else
            { success := true,
              record := extractRecord (CodeExecutor.execute code (triggerContext r old)) r,
              errors := [], executed := true }) := by
  unfold TriggerManager.execute_trigger regLookup
  cases hga : alGet tm.triggers table with
  | none => rfl
  | some tmap => simp only [hga]

theorem register_valid_ok (tm : TriggerManager) (table : String)
    (tt : TriggerType) (code : Source)
    (hv : (CodeExecutor.validate_code code).valid = true) :
    tm.register_trigger table tt code =
      (.ok (),
       ⟨alSet (if alHas tm.triggers table then tm.triggers
               else alSet tm.triggers table [])
          table
          (alSet ((alGet (if alHas tm.triggers table then tm.triggers
                          else alSet tm.triggers table []) table).getD [])
            tt code)⟩) := by
  unfold TriggerManager.register_trigger
  simp [hv]

theorem regLookup_after_register (tm : TriggerManager) (table : String)
    (tt : TriggerType) (code : Source)
    (hv : (CodeExecutor.validate_code code).valid = true)
    (t' : String) (k' : TriggerType) :
    regLookup ((tm.register_trigger table tt code).2).triggers t' k' =
      (if t' = table ∧ k' = tt then some code
       else regLookup tm.triggers t' k') := by
  rw [register_valid_ok tm table tt code hv]
  unfold regLookup
  by_cases ht : t' = table
  · subst ht
    rw [alGet_alSet_self]
    by_cases hk : k' = tt
    · subst hk
      simp [alGet_alSet_self]
    · have hk' : ¬ tt = k' := fun hh => hk hh.symm
      simp only [alGet_alSet, hk', if_false]
      by_cases hhas : alHas tm.triggers t'
      · obtain ⟨tmap, htmap⟩ :=
          Option.isSome_iff_exists.mp (by unfold alHas at hhas; exact hhas)
        simp [hhas, htmap, hk]
      · have hnone : alGet tm.triggers t' = none := by
          unfold alHas at hhas
          simpa using hhas
        simp [hhas, hnone, alGet_alSet_self, hk, alGet]
  · have ht' : ¬ table = t' := fun hh => ht hh.symm
    simp only [alGet_alSet, ht', if_false]
    by_cases hhas : alHas tm.triggers table
    · simp [hhas, ht]
    · simp [hhas, alGet_alSet, ht', ht]

/-- C1: for every mutation call (insert, update, or delete) in which the
trigger execution reports failure, the pipeline performs no persistence
operation: the call returns the failure to the caller and the manager
state, including every stored table with its row set and row values, is
exactly what it was before the call. Each of the three conjuncts is
self-contained: insert needs only its own ON_INSERT trigger to fail
(whatever the other triggers or the table contents), and update and
delete need only a successful fetch plus their own failing trigger. -/
theorem mutation_trigger_failure_no_persistence
    (c : CRUDManager) (table : String) :
    (∀ (r : Record),
      (c.trigger_manager.execute_trigger table .on_insert r).success = false →
      c.insert table r =
        .ok ({ success := false,
               errors := (c.trigger_manager.execute_trigger table
                 .on_insert r).errors },
             c)) ∧
    (∀ (rid : Int) (upd : Record) (now : String) (g : CRUDManager.GetResult),
      c.get_by_id table rid = .ok g → g.success = true →
      (c.trigger_manager.execute_trigger table .on_update
        (alSet (recUpdate (g.record.getD []) upd) "updated_at" (Value.vstr now))
        (some (g.record.getD []))).success = false →
      c.update table rid upd now =
        .ok ({ success := false,
               errors := (c.trigger_manager.execute_trigger table .on_update
                 (alSet (recUpdate (g.record.getD []) upd) "updated_at"
                   (Value.vstr now))
                 (some (g.record.getD []))).errors },
             c)) ∧
    (∀ (rid : Int) (g : CRUDManager.GetResult),
      c.get_by_id table rid = .ok g → g.success = true →
      (c.trigger_manager.execute_trigger table .on_delete
        (g.record.getD []) (some (g.record.getD []))).success = false →
      c.delete table rid =
        .ok ({ success := false,
               errors := (c.trigger_manager.execute_trigger table .on_delete
                 (g.record.getD []) (some (g.record.getD []))).errors },
             c)) := by
  refine ⟨?_, ?_, ?_⟩
  · intro r hins
    simp [CRUDManager.insert, hins]
  · intro rid upd now g hget hgs hupd
    simp [CRUDManager.update, hget, hgs, hupd]
  · intro rid g hget hgs hdel
    simp [CRUDManager.delete, hget, hgs, hdel]

/-- Witness for C1: at the all-rejecting customers scenario each
conjunct's hypotheses hold and each mutation returns the rejection with
the manager unchanged; and at a pipeline whose only trigger is a
failing ON_INSERT snippet over an empty table, the insert conjunct
applies on its own. -/
theorem mutation_trigger_failure_no_persistence_witness :
    cA.insert "customers" [("name", Value.vstr "X")] =
      .ok ({ success := false, errors := ["rejected"] }, cA) ∧
    cA.update "customers" 1 [("email", Value.vstr "n@x.com")] "T1" =
      .ok ({ success := false, errors := ["rejected"] }, cA) ∧
    cA.delete "customers" 1 =
      .ok ({ success := false, errors := ["rejected"] }, cA) ∧
    cInsOnly.insert "customers" [("name", Value.vstr "X")] =
      .ok ({ success := false, errors := ["rejected"] }, cInsOnly) := by
  refine ⟨?_, ?_, ?_, ?_⟩
  · exact (mutation_trigger_failure_no_persistence cA "customers").1
      [("name", Value.vstr "X")] (by rfl)
  · exact (mutation_trigger_failure_no_persistence cA "customers").2.1
      1 [("email", Value.vstr "n@x.com")] "T1"
      { success := true, record := some row1 } (by rfl) (by rfl) (by rfl)
  · exact (mutation_trigger_failure_no_persistence cA "customers").2.2
      1 { success := true, record := some row1 } (by rfl) (by rfl) (by rfl)
  · exact (mutation_trigger_failure_no_persistence cInsOnly "customers").1
      [("name", Value.vstr "X")] (by rfl)

/-- C2 counterexample: the claim that a capability violation, a
business-rule rejection and a generic runtime fault reach the caller as
three mutually distinguishable outcome kinds fails at this input: a
snippet importing the disallowed module os and a different snippet that
intentionally raises with the matching message produce literally equal
values at the trigger boundary, so the caller cannot tell a
CapabilityViolation from a ValidationFailure. -/
theorem trigger_failure_kinds_indistinguishable :
    impCode ≠ raiseSameCode ∧
    TriggerManager.execute_trigger (tmOf "t" .on_insert impCode) "t"
        .on_insert [("a", Value.vint 1)] =
      TriggerManager.execute_trigger (tmOf "t" .on_insert raiseSameCode) "t"
        .on_insert [("a", Value.vint 1)] :=
  ⟨by decide, by rfl⟩

/-- C2 amended: every failing snippet run reaches the trigger caller as
one single failure shape, success false with a message-string list, the
unmodified record and executed true; the three fault kinds are not
returned as distinct tagged outcomes and are distinguishable only
insofar as their message texts differ (the executor also attaches the
exception object, which execute_trigger drops).  The three concrete
runs show a disallowed import, an intentional rejection and a division
by zero each collapsing to that shape with only str(e) reported. -/
theorem trigger_failure_single_shape
    (tm : TriggerManager) (table : String) (tt : TriggerType)
    (r : Record) (old : Option Record)
    (h : (tm.execute_trigger table tt r old).success = false) :
    tm.execute_trigger table tt r old =
      { success := false, record := .dict r,
        errors := (tm.execute_trigger table tt r old).errors,
        executed := true } ∧
    CodeExecutor.execute impCode [] =
      { success := false, errors := ["Import of module os is not allowed"],
        context := [],
        exception := some ⟨.importError, "Import of module os is not allowed"⟩ } ∧
    CodeExecutor.execute (.ok [Stmt.raiseMsg "bad data"]) [] =
      { success := false, errors := ["bad data"], context := [],
        exception := some ⟨.userError, "bad data"⟩ } ∧
    CodeExecutor.execute
        (.ok [Stmt.assignName "x"
          (Expr.div (Expr.lit (Value.vint 1)) (Expr.lit (Value.vint 0)))]) [] =
      { success := false, errors := ["division by zero"], context := [],
        exception := some ⟨.zeroDivisionError, "division by zero"⟩ } := by
  refine ⟨?_, by rfl, by rfl, by rfl⟩
  by_cases hht : tm.has_trigger table tt
  · obtain ⟨tmap, code, hga, hgb⟩ := has_trigger_iff_found.mp hht
    rw [execute_trigger_found hga hgb r old] at h ⊢
    by_cases hs : (CodeExecutor.execute code (triggerContext r old)).success
    · simp [hs] at h
    · simp only [Bool.not_eq_true] at hs
      simp [hs]
  · rw [execute_trigger_no_trigger (by simpa using hht) r old] at h
    simp at h

/-- Witness for C2 amended at the rejecting insert trigger of the cA
scenario. -/
theorem trigger_failure_single_shape_witness :
    (TriggerManager.execute_trigger tmFail "customers" .on_insert
        [("a", Value.vint 1)]).success = false ∧
    TriggerManager.execute_trigger tmFail "customers" .on_insert
        [("a", Value.vint 1)] =
      { success := false, record := .dict [("a", Value.vint 1)],
        errors := ["rejected"], executed := true } :=
  ⟨by rfl,
   (trigger_failure_single_shape tmFail "customers" .on_insert
      [("a", Value.vint 1)] none (by rfl)).1⟩

/-- C3 counterexample: the claim that a snippet attempt to set the
primary key field is never honoured and that the engine-assigned key is
distinct from it fails at this input: with the insert trigger assigning
id 999 over an otherwise empty one-row table, the insert succeeds and
the returned id and the id field of the returned record both equal 999,
exactly the value the snippet assigned (the assignment flows into the
INSERT column list, and an INTEGER PRIMARY KEY names the rowid). -/
theorem insert_snippet_id_honoured :
    (cB.insert "customers" [("name", Value.vstr "X")]).map
        (fun p => (p.1.success, p.1.id, alGet (p.1.record.getD []) "id")) =
      .ok (true, some 999, some (Value.vint 999)) := by decide

/-- C3 amended: for every successful insert the returned record carries
the engine-assigned key (cursor.lastrowid) in its id field — the
pipeline writes lastrowid over whatever the snippet left there — but a
snippet assignment to the primary key field is passed through to the
INSERT statement, so the engine assigns exactly the snippet value
whenever it is an unused integer key; the snippet value is then
honoured rather than discarded and need not be distinct from the
returned key. -/
theorem insert_returned_id_is_lastrowid
    (c : CRUDManager) (table : String) (r : Record)
    (res : CRUDManager.InsertResult) (c' : CRUDManager)
    (hok : c.insert table r = .ok (res, c'))
    (hs : res.success = true) :
    ∃ i mr, res.id = some i ∧
      (c.trigger_manager.execute_trigger table .on_insert r).record =
        PyVal.dict mr ∧
      res.record = some (alSet mr "id" (Value.vint i)) ∧
      alGet (res.record.getD []) "id" = some (Value.vint i) := by
  simp only [CRUDManager.insert] at hok
  split at hok
  · rw [Except.ok.injEq, Prod.mk.injEq] at hok
    obtain ⟨h1, h2⟩ := hok
    rw [← h1] at hs
    simp at hs
  · split at hok
    · exact absurd hok (by simp)
    · rename_i mr hmr
      split at hok
      · rename_i inserted_id db2 hdb
        rw [Except.ok.injEq, Prod.mk.injEq] at hok
        obtain ⟨h1, h2⟩ := hok
        refine ⟨inserted_id, mr, ?_, hmr, ?_, ?_⟩
        · rw [← h1]
        · rw [← h1]
        · rw [← h1]
          simp [alGet_alSet_self]
      · rw [Except.ok.injEq, Prod.mk.injEq] at hok
        obtain ⟨h1, h2⟩ := hok
        rw [← h1] at hs
        simp at hs

/-- Witness for C3 amended at the cB counterexample run. -/
theorem insert_returned_id_is_lastrowid_witness :
    (cB.insert "customers" [("name", Value.vstr "X")] =
       .ok (cBrun.1, cBrun.2) ∧
     cBrun.1.success = true) ∧
    (∃ i mr, cBrun.1.id = some i ∧
      (cB.trigger_manager.execute_trigger "customers" .on_insert
        [("name", Value.vstr "X")]).record = PyVal.dict mr ∧
      cBrun.1.record = some (alSet mr "id" (Value.vint i)) ∧
      alGet (cBrun.1.record.getD []) "id" = some (Value.vint i)) :=
  ⟨⟨rfl, rfl⟩,
   insert_returned_id_is_lastrowid cB "customers" [("name", Value.vstr "X")]
     cBrun.1 cBrun.2 rfl rfl⟩

/-- C4 counterexample: the claim that the refreshed updated_at
timestamp is always included in the persisted field set fails at this
input: the update trigger writes the old updated_at value back over the
refreshed one, the update still succeeds, the computed write set is
exactly the email field with the timestamp excluded, and the stored row
afterwards keeps the old timestamp T0 rather than the refreshed T1. -/
theorem update_delta_excludes_reset_updated_at :
    (TriggerManager.execute_trigger cC.trigger_manager "customers" .on_update
        (alSet (recUpdate row1 [("email", Value.vstr "n@x.com")]) "updated_at"
          (Value.vstr "T1"))
        (some row1)).success = true ∧
    (TriggerManager.execute_trigger cC.trigger_manager "customers" .on_update
        (alSet (recUpdate row1 [("email", Value.vstr "n@x.com")]) "updated_at"
          (Value.vstr "T1"))
        (some row1)).record =
      PyVal.dict
        [("id", Value.vint 1), ("name", Value.vstr "John"),
         ("email", Value.vstr "n@x.com"),
         ("created_at", Value.vstr "T0"), ("updated_at", Value.vstr "T0")] ∧
    CRUDManager.computeFieldsToUpdate
        [("id", Value.vint 1), ("name", Value.vstr "John"),
         ("email", Value.vstr "n@x.com"),
         ("created_at", Value.vstr "T0"), ("updated_at", Value.vstr "T0")]
        row1 =
      [("email", Value.vstr "n@x.com")] ∧
    (cC.update "customers" 1 [("email", Value.vstr "n@x.com")] "T1").map
        (fun p =>
          (p.1.success,
           (alGet p.2.db "customers").map
             (fun t => t.rows.map (fun row => alGet row "updated_at")))) =
      .ok (true, some [some (Value.vstr "T0")]) :=
  ⟨by rfl, by rfl, by rfl, by rfl⟩

/-- C4 amended: the persisted field set of a successful update is the
set of fields of the post-trigger record, other than id and created_at,
whose value differs from the pre-trigger old-record snapshot; id and
created_at are always excluded, and updated_at is included exactly when
its post-trigger value differs from the stored one — which holds in
particular whenever the trigger leaves the refreshed timestamp alone
and the refreshed value differs from the old one, as in the balance
example of the spec, but not when a trigger writes the old timestamp
back.  The last two conjuncts check the balance example end to end:
with old record balance 100 and requested change balance 150 under a
trigger not touching balance, exactly balance and updated_at are
written and the stored row afterwards is exactly the old row with
balance 150 and the refreshed timestamp. -/
theorem update_delta_characterisation
    (modified old : Record) (v : Value)
    (hv : alGet modified "updated_at" = some v)
    (hne : ¬ alGet old "updated_at" = some v) :
    "id" ∉ recKeys (CRUDManager.computeFieldsToUpdate modified old) ∧
    "created_at" ∉ recKeys (CRUDManager.computeFieldsToUpdate modified old) ∧
    "updated_at" ∈ recKeys (CRUDManager.computeFieldsToUpdate modified old) ∧
    (TriggerManager.execute_trigger cAcct.trigger_manager "accounts" .on_update
        (alSet (recUpdate acctRow [("balance", Value.vint 150)]) "updated_at"
          (Value.vstr "T1"))
        (some acctRow)).record =
      PyVal.dict
        [("id", Value.vint 1), ("balance", Value.vint 150),
         ("created_at", Value.vstr "T0"), ("updated_at", Value.vstr "T1")] ∧
    CRUDManager.computeFieldsToUpdate
        [("id", Value.vint 1), ("balance", Value.vint 150),
         ("created_at", Value.vstr "T0"), ("updated_at", Value.vstr "T1")]
        acctRow =
      [("balance", Value.vint 150), ("updated_at", Value.vstr "T1")] ∧
    (cAcct.update "accounts" 1 [("balance", Value.vint 150)] "T1").map
        (fun p => (p.1.success, (alGet p.2.db "accounts").map Table.rows)) =
      .ok (true, some
        [[("id", Value.vint 1), ("balance", Value.vint 150),
          ("created_at", Value.vstr "T0"), ("updated_at", Value.vstr "T1")]]) := by
  refine ⟨?_, ?_, ?_, by rfl, by rfl, by rfl⟩
  · intro hmem
    simp [recKeys, CRUDManager.computeFieldsToUpdate, List.mem_filter] at hmem
  · intro hmem
    simp [recKeys, CRUDManager.computeFieldsToUpdate, List.mem_filter] at hmem
  · have hm := alGet_mem hv
    simp [recKeys, CRUDManager.computeFieldsToUpdate, List.mem_filter]
    refine ⟨v, ⟨hm, ?_⟩⟩
    by_cases hh : alHas old "updated_at"
    · simp [hh, hne]
    · simp [hh]

/-- Witness for C4 amended at a record whose post-trigger updated_at
differs from the old snapshot. -/
theorem update_delta_characterisation_witness :
    (alGet [("updated_at", Value.vstr "T9"), ("x", Value.vint 1)] "updated_at" =
       some (Value.vstr "T9") ∧
     ¬ alGet [("updated_at", Value.vstr "T0")] "updated_at" =
       some (Value.vstr "T9")) ∧
    "id" ∉ recKeys (CRUDManager.computeFieldsToUpdate
      [("updated_at", Value.vstr "T9"), ("x", Value.vint 1)]
      [("updated_at", Value.vstr "T0")]) ∧
    "updated_at" ∈ recKeys (CRUDManager.computeFieldsToUpdate
      [("updated_at", Value.vstr "T9"), ("x", Value.vint 1)]
      [("updated_at", Value.vstr "T0")]) :=
  ⟨⟨by rfl, by decide⟩,
   (update_delta_characterisation
      [("updated_at", Value.vstr "T9"), ("x", Value.vint 1)]
      [("updated_at", Value.vstr "T0")] (Value.vstr "T9")
      (by rfl) (by decide)).1,
   (update_delta_characterisation
      [("updated_at", Value.vstr "T9"), ("x", Value.vint 1)]
      [("updated_at", Value.vstr "T0")] (Value.vstr "T9")
      (by rfl) (by decide)).2.2.1⟩

/-- C5: for every registry state and every key pair, attempting to
register a snippet that fails static validation leaves the registry
observationally unchanged: has_trigger and get_trigger answer the same
for every (table, event kind) pair before and after the failed
registration — in particular no definition is stored for the attempted
key — and every trigger execution behaves identically.  (The source
does create an empty inner dict for a previously unseen table before
validating, but no lookup can observe it.) -/
theorem register_invalid_leaves_registry_unchanged
    (tm : TriggerManager) (table : String) (tt : TriggerType) (code : Source)
    (h : (CodeExecutor.validate_code code).valid = false) :
    ∀ (t' : String) (k' : TriggerType) (r : Record) (old : Option Record),
      ((tm.register_trigger table tt code).2).has_trigger t' k' =
        tm.has_trigger t' k' ∧
      ((tm.register_trigger table tt code).2).get_trigger t' k' =
        tm.get_trigger t' k' ∧
      ((tm.register_trigger table tt code).2).execute_trigger t' k' r old =
        tm.execute_trigger t' k' r old := by
  intro t' k' r old
  have hstate : (tm.register_trigger table tt code).2 =
      ⟨if alHas tm.triggers table then tm.triggers
        else alSet tm.triggers table []⟩ := by
    unfold TriggerManager.register_trigger
    simp [h]
  rw [hstate]
  by_cases hhas : alHas tm.triggers table
  · simp [hhas]
  · have hnone : alGet tm.triggers table = none := by
      unfold alHas at hhas
      simpa using hhas
    simp only [hhas, if_false, Bool.false_eq_true]
    refine ⟨?_, ?_, ?_⟩
    · unfold TriggerManager.has_trigger
      simp only [alGet_alSet]
      by_cases ht : table = t'
      · subst ht
        simp [hnone, alHas, alGet]
      · simp [ht]
    · unfold TriggerManager.get_trigger TriggerManager.has_trigger
      simp only [alGet_alSet]
      by_cases ht : table = t'
      · subst ht
        simp [hnone, alHas, alGet]
      · simp [ht]
    · unfold TriggerManager.execute_trigger
      simp only [alGet_alSet]
      by_cases ht : table = t'
      · subst ht
        simp [hnone, alGet]
      · simp [ht]

/-- Witness for C5 at a failed registration of syntactically invalid
source for a previously unseen table. -/
theorem register_invalid_leaves_registry_unchanged_witness :
    (CodeExecutor.validate_code (.invalid "bad")).valid = false ∧
    (((tmFail.register_trigger "newtable" .on_insert (.invalid "bad")).2).has_trigger
        "newtable" .on_insert = tmFail.has_trigger "newtable" .on_insert ∧
     ((tmFail.register_trigger "newtable" .on_insert (.invalid "bad")).2).get_trigger
        "newtable" .on_insert = tmFail.get_trigger "newtable" .on_insert ∧
     ((tmFail.register_trigger "newtable" .on_insert (.invalid "bad")).2).execute_trigger
        "newtable" .on_insert [("a", Value.vint 1)] none =
       tmFail.execute_trigger "newtable" .on_insert [("a", Value.vint 1)] none) :=
  ⟨by rfl,
   register_invalid_leaves_registry_unchanged tmFail "newtable" .on_insert
     (.invalid "bad") (by rfl) "newtable" .on_insert [("a", Value.vint 1)] none⟩

/-- C6 counterexample: the claim that no exception crosses the
subsystem boundary fails at this input: register_trigger on source that
fails validation raises ValueError (the Except.error component models
the raise) instead of returning the failure as a value. -/
theorem register_trigger_raises_on_invalid :
    (TriggerManager.register_trigger ⟨[]⟩ "customers" .on_insert
        (.invalid "invalid syntax")).1 =
      .error "Invalid trigger code: invalid syntax" := by decide

/-- C6 amended: trigger-phase and persistence-phase failures of insert,
update and delete are returned as tagged values — insert and update
return values whenever the trigger phase has left the record name bound
to a dict, and delete returns a value once the initial fetch has
answered — but two kinds of exception cross the boundary unguarded:
register_trigger raises ValueError on invalid code rather than
returning it, and when a snippet rebinds record to a non-dict value the
keys and items calls of insert and update stand outside their try
blocks, so an AttributeError escapes to the caller (the unguarded fetch
itself can likewise raise, for example on a nonexistent table). -/
theorem failure_propagation_policy
    (tm : TriggerManager) (c : CRUDManager) (table : String) :
    (∀ (rtable : String) (tt : TriggerType) (code : Source),
      (CodeExecutor.validate_code code).valid = false →
      ∃ msg, (tm.register_trigger rtable tt code).1 = .error msg) ∧
    (∀ (r mr : Record),
      (c.trigger_manager.execute_trigger table .on_insert r).record =
        PyVal.dict mr →
      ∃ p, c.insert table r = .ok p) ∧
    (∀ (rid : Int) (upd : Record) (now : String) (g : CRUDManager.GetResult)
        (mr : Record),
      c.get_by_id table rid = .ok g →
      (c.trigger_manager.execute_trigger table .on_update
        (alSet (recUpdate (g.record.getD []) upd) "updated_at" (Value.vstr now))
        (some (g.record.getD []))).record = PyVal.dict mr →
      ∃ p, c.update table rid upd now = .ok p) ∧
    (∀ (rid : Int) (g : CRUDManager.GetResult),
      c.get_by_id table rid = .ok g →
      ∃ p, c.delete table rid = .ok p) ∧
    (∀ (r : Record) (s : Value),
      (c.trigger_manager.execute_trigger table .on_insert r).success = true →
      (c.trigger_manager.execute_trigger table .on_insert r).record =
        PyVal.scalar s →
      c.insert table r =
        .error ⟨.attributeError, "object has no attribute keys"⟩) ∧
    (∀ (rid : Int) (upd : Record) (now : String) (g : CRUDManager.GetResult)
        (s : Value),
      c.get_by_id table rid = .ok g → g.success = true →
      (c.trigger_manager.execute_trigger table .on_update
        (alSet (recUpdate (g.record.getD []) upd) "updated_at" (Value.vstr now))
        (some (g.record.getD []))).success = true →
      (c.trigger_manager.execute_trigger table .on_update
        (alSet (recUpdate (g.record.getD []) upd) "updated_at" (Value.vstr now))
        (some (g.record.getD []))).record = PyVal.scalar s →
      c.update table rid upd now =
        .error ⟨.attributeError, "object has no attribute items"⟩) := by
  refine ⟨?_, ?_, ?_, ?_, ?_, ?_⟩
  · intro rtable tt code hval
    unfold TriggerManager.register_trigger
    simp [hval]
  · intro r mr hmr
    simp only [CRUDManager.insert, hmr]
    split
    · exact ⟨_, rfl⟩
    · split
      · exact ⟨_, rfl⟩
      · exact ⟨_, rfl⟩
  · intro rid upd now g mr hget hmr
    simp only [CRUDManager.update, hget, hmr]
    split
    · exact ⟨_, rfl⟩
    · split
      · exact ⟨_, rfl⟩
      · split
        · exact ⟨_, rfl⟩
        · exact ⟨_, rfl⟩
  · intro rid g hget
    simp only [CRUDManager.delete, hget]
    split
    · exact ⟨_, rfl⟩
    · split
      · exact ⟨_, rfl⟩
      · split
        · exact ⟨_, rfl⟩
        · exact ⟨_, rfl⟩
  · intro r s hsucc hscalar
    simp [CRUDManager.insert, hsucc, hscalar]
  · intro rid upd now g s hget hgs hsucc hscalar
    simp [CRUDManager.update, hget, hgs, hsucc, hscalar]

/-- Witness for C6 amended: the value-return conjuncts at the
all-rejecting cA scenario, and the AttributeError escapes at the
cScalar scenario whose triggers rebind record to the integer 5. -/
theorem failure_propagation_policy_witness :
    ((CodeExecutor.validate_code (.invalid "bad")).valid = false ∧
     cA.get_by_id "customers" 1 =
       .ok { success := true, record := some row1 } ∧
     cScalar.get_by_id "customers" 1 =
       .ok { success := true, record := some row1 } ∧
     (cScalar.trigger_manager.execute_trigger "customers" .on_insert
        [("name", Value.vstr "X")]).record = PyVal.scalar (Value.vint 5)) ∧
    ((∃ msg, (tmFail.register_trigger "t" .on_insert (.invalid "bad")).1 =
        .error msg) ∧
     (∃ p, cA.insert "customers" [("name", Value.vstr "X")] = .ok p) ∧
     (∃ p, cA.update "customers" 1 [("name", Value.vstr "Y")] "T1" = .ok p) ∧
     (∃ p, cA.delete "customers" 1 = .ok p) ∧
     cScalar.insert "customers" [("name", Value.vstr "X")] =
       .error ⟨.attributeError, "object has no attribute keys"⟩ ∧
     cScalar.update "customers" 1 [("name", Value.vstr "Y")] "T1" =
       .error ⟨.attributeError, "object has no attribute items"⟩) := by
  obtain ⟨hreg, hins, hupd, hdel, -, -⟩ :=
    failure_propagation_policy tmFail cA "customers"
  obtain ⟨-, -, -, -, hinsS, hupdS⟩ :=
    failure_propagation_policy tmFail cScalar "customers"
  refine ⟨⟨by rfl, by rfl, by rfl, by rfl⟩, ?_, ?_, ?_, ?_, ?_, ?_⟩
  · exact hreg "t" .on_insert (.invalid "bad") (by rfl)
  · exact hins [("name", Value.vstr "X")] [("name", Value.vstr "X")] (by rfl)
  · exact hupd 1 [("name", Value.vstr "Y")] "T1"
      { success := true, record := some row1 }
      (alSet (recUpdate row1 [("name", Value.vstr "Y")]) "updated_at"
        (Value.vstr "T1"))
      (by rfl) (by rfl)
  · exact hdel 1 { success := true, record := some row1 } (by rfl)
  · exact hinsS [("name", Value.vstr "X")] (Value.vint 5) (by rfl) (by rfl)
  · exact hupdS 1 [("name", Value.vstr "Y")] "T1"
      { success := true, record := some row1 } (Value.vint 5)
      (by rfl) (by rfl) (by rfl) (by rfl)

theorem buildRow_id {r : Record} {rowid : Int} (cols : List Column) :
    ∀ (row : Record), buildRow r rowid cols = .ok row →
      "id" ∈ cols.map Column.name →
      alGet row "id" = some (Value.vint rowid) := by
  induction cols with
  | nil =>
    intro row hb hmem
    simp at hmem
  | cons c rest ih =>
    intro row hb hmem
    simp only [buildRow] at hb
    simp only [List.map_cons, List.mem_cons] at hmem
    by_cases hc : c.name = "id"
    · rw [if_pos hc] at hb
      split at hb
      · exact absurd hb (by simp)
      · rename_i row' hrest
        rw [Except.ok.injEq] at hb
        subst hb
        simp [alGet]
    · rw [if_neg hc] at hb
      split at hb
      · exact absurd hb (by simp)
      · rename_i v hv
        split at hb
        · exact absurd hb (by simp)
        · rename_i row' hrest
          rw [Except.ok.injEq] at hb
          subst hb
          have hmem' : "id" ∈ rest.map Column.name := by
            rcases hmem with h1 | h2
            · exact absurd h1.symm hc
            · exact h2
          simp only [alGet]
          rw [if_neg hc]
          exact ih row' hrest hmem'

theorem buildRow_agrees {r : Record} {rowid : Int} (cols : List Column) :
    ∀ (row : Record), buildRow r rowid cols = .ok row →
      ∀ (k : String) (v : Value), alGet r k = some v → ¬ k = "id" →
        k ∈ cols.map Column.name → alGet row k = some v := by
  induction cols with
  | nil =>
    intro row hb k v hk hkid hmem
    simp at hmem
  | cons c rest ih =>
    intro row hb k v hk hkid hmem
    simp only [buildRow] at hb
    simp only [List.map_cons, List.mem_cons] at hmem
    by_cases hc : c.name = "id"
    · rw [if_pos hc] at hb
      split at hb
      · exact absurd hb (by simp)
      · rename_i row' hrest
        rw [Except.ok.injEq] at hb
        subst hb
        have hmem' : k ∈ rest.map Column.name := by
          rcases hmem with h1 | h2
          · exact absurd (h1.trans hc) hkid
          · exact h2
        have hne : ¬ ("id" : String) = k := fun hh => hkid hh.symm
        simp only [alGet]
        rw [if_neg hne]
        exact ih row' hrest k v hk hkid hmem'
    · rw [if_neg hc] at hb
      split at hb
      · exact absurd hb (by simp)
      · rename_i v' hv
        split at hb
        · exact absurd hb (by simp)
        · rename_i row' hrest
          rw [Except.ok.injEq] at hb
          subst hb
          by_cases hck : c.name = k
          · have hveq : v' = v := by
              unfold columnValue at hv
              simp only [hck, hk] at hv
              split at hv
              · exact absurd hv (by simp)
              · rw [Except.ok.injEq] at hv
                exact hv.symm
            subst hveq
            simp only [alGet]
            rw [if_pos hck]
          · have hmem' : k ∈ rest.map Column.name := by
              rcases hmem with h1 | h2
              · exact absurd h1.symm hck
              · exact h2
            simp only [alGet]
            rw [if_neg hck]
            exact ih row' hrest k v hk hkid hmem'

theorem dbInsert_ok_row {db : DB} {table : String} {r : Record} {i : Int}
    {db2 : DB} (h : dbInsert db table r = .ok (i, db2)) :
    ∃ t row, alGet db table = some t ∧
      assignRowid t r = .ok i ∧
      buildRow r i t.columns = .ok row ∧
      db2 = alSet db table
        { t with rows := t.rows ++ [row], seq := max t.seq i } := by
  unfold dbInsert at h
  split at h
  · exact absurd h (by simp)
  · rename_i t ht
    split at h
    · exact absurd h (by simp)
    · split at h
      · exact absurd h (by simp)
      · rename_i rowid hrowid
        split at h
        · exact absurd h (by simp)
        · rename_i row hrow
          rw [Except.ok.injEq, Prod.mk.injEq] at h
          obtain ⟨h1, h2⟩ := h
          subst h1
          exact ⟨t, row, ht, hrowid, hrow, h2.symm⟩

/-- C7: for every table and event kind with no trigger registered, the
trigger phase passes the record through unchanged and reports executed
false; insert then issues the INSERT with exactly the supplied record
and reports trigger_executed false, the stored row carrying the
supplied field values (plus schema defaults for omitted columns and the
engine-assigned key); update writes exactly the merged-record delta and
delete removes the fetched row, both reporting trigger_executed false;
and each run has the same persistence effect and returned record as the
same call through a pipeline whose trigger for the key is a registered
no-op snippet, which differs only in reporting executed true. -/
theorem no_trigger_insert_verbatim
    (c : CRUDManager) (table : String) :
    (∀ (tt : TriggerType) (r : Record) (old : Option Record),
      c.trigger_manager.has_trigger table tt = false →
      c.trigger_manager.execute_trigger table tt r old =
        { success := true, record := .dict r, executed := false }) ∧
    (∀ (r : Record),
      c.trigger_manager.has_trigger table .on_insert = false →
      c.insert table r =
        (match dbInsert c.db table r with
         | .ok (i, db2) =>
             .ok ({ success := true, id := some i,
                    record := some (alSet r "id" (Value.vint i)),
                    trigger_executed := some false },
                  { c with db := db2 })
         | .error e => .ok ({ success := false, errors := [e] }, c))) ∧
    (∀ (r : Record),
      c.trigger_manager.has_trigger table .on_insert = false →
      ∀ (i : Int) (db2 : DB) (t : Table),
      dbInsert c.db table r = .ok (i, db2) →
      alGet c.db table = some t → "id" ∈ columnNames t →
      ∃ t2 row, alGet db2 table = some t2 ∧
        t2.rows = t.rows ++ [row] ∧
        alGet row "id" = some (Value.vint i) ∧
        (∀ (k : String) (v : Value), alGet r k = some v → ¬ k = "id" →
          alGet row k = some v)) ∧
    (∀ (rid : Int) (upd : Record) (now : String) (g : CRUDManager.GetResult),
      c.trigger_manager.has_trigger table .on_update = false →
      c.get_by_id table rid = .ok g → g.success = true →
      c.update table rid upd now =
        (match dbUpdate c.db table
            (CRUDManager.computeFieldsToUpdate
              (alSet (recUpdate (g.record.getD []) upd) "updated_at"
                (Value.vstr now))
              (g.record.getD [])) rid with
         | .ok db2 =>
             .ok ({ success := true,
                    record := some (alSet (recUpdate (g.record.getD []) upd)
                      "updated_at" (Value.vstr now)),
                    trigger_executed := some false },
                  { c with db := db2 })
         | .error e => .ok ({ success := false, errors := [e] }, c))) ∧
    (∀ (rid : Int) (g : CRUDManager.GetResult),
      c.trigger_manager.has_trigger table .on_delete = false →
      c.get_by_id table rid = .ok g → g.success = true →
      c.delete table rid =
        (match dbDelete c.db table rid with
         | .ok db2 =>
             .ok ({ success := true,
                    deleted_record := some (g.record.getD []),
                    trigger_executed := some false },
                  { c with db := db2 })
         | .error e => .ok ({ success := false, errors := [e] }, c))) ∧
    (∀ (tt : TriggerType) (r : Record) (old : Option Record),
      ({ c with trigger_manager :=
          (c.trigger_manager.register_trigger table tt (.ok [])).2 }
          : CRUDManager).trigger_manager.execute_trigger table tt r old =
        { success := true, record := .dict r, executed := true }) ∧
    (∀ (r : Record),
      ({ c with trigger_manager :=
          (c.trigger_manager.register_trigger table .on_insert (.ok [])).2 }
          : CRUDManager).insert table r =
        (match dbInsert c.db table r with
         | .ok (i, db2) =>
             .ok ({ success := true, id := some i,
                    record := some (alSet r "id" (Value.vint i)),
                    trigger_executed := some true },
                  { c with
                      trigger_manager :=
                        (c.trigger_manager.register_trigger table .on_insert
                          (.ok [])).2,
                      db := db2 })
         | .error e =>
             .ok ({ success := false, errors := [e] },
                  { c with trigger_manager :=
                      (c.trigger_manager.register_trigger table .on_insert
                        (.ok [])).2 }))) ∧
    (∀ (rid : Int) (upd : Record) (now : String) (g : CRUDManager.GetResult),
      c.get_by_id table rid = .ok g → g.success = true →
      ({ c with trigger_manager :=
          (c.trigger_manager.register_trigger table .on_update (.ok [])).2 }
          : CRUDManager).update table rid upd now =
        (match dbUpdate c.db table
            (CRUDManager.computeFieldsToUpdate
              (alSet (recUpdate (g.record.getD []) upd) "updated_at"
                (Value.vstr now))
              (g.record.getD [])) rid with
         | .ok db2 =>
             .ok ({ success := true,
                    record := some (alSet (recUpdate (g.record.getD []) upd)
                      "updated_at" (Value.vstr now)),
                    trigger_executed := some true },
                  { c with
                      trigger_manager :=
                        (c.trigger_manager.register_trigger table .on_update
                          (.ok [])).2,
                      db := db2 })
         | .error e =>
             .ok ({ success := false, errors := [e] },
                  { c with trigger_manager :=
                      (c.trigger_manager.register_trigger table .on_update
                        (.ok [])).2 }))) ∧
    (∀ (rid : Int) (g : CRUDManager.GetResult),
      c.get_by_id table rid = .ok g → g.success = true →
      ({ c with trigger_manager :=
          (c.trigger_manager.register_trigger table .on_delete (.ok [])).2 }
          : CRUDManager).delete table rid =
        (match dbDelete c.db table rid with
         | .ok db2 =>
             .ok ({ success := true,
                    deleted_record := some (g.record.getD []),
                    trigger_executed := some true },
                  { c with
                      trigger_manager :=
                        (c.trigger_manager.register_trigger table .on_delete
                          (.ok [])).2,
                      db := db2 })
         | .error e =>
             .ok ({ success := false, errors := [e] },
                  { c with trigger_manager :=
                      (c.trigger_manager.register_trigger table .on_delete
                        (.ok [])).2 }))) := by
  have hnoop : ∀ (tt : TriggerType) (r : Record) (old : Option Record),
      ({ c with trigger_manager :=
          (c.trigger_manager.register_trigger table tt (.ok [])).2 }
          : CRUDManager).trigger_manager.execute_trigger table tt r old =
        { success := true, record := .dict r, executed := true } := by
    intro tt r old
    rw [execute_trigger_eq_regLookup]
    rw [show ({ c with trigger_manager :=
          (c.trigger_manager.register_trigger table tt (.ok [])).2 }
          : CRUDManager).trigger_manager =
        (c.trigger_manager.register_trigger table tt (.ok [])).2 from rfl]
    rw [regLookup_after_register c.trigger_manager table tt (.ok [])
      (by rfl) table tt]
    simp only [and_self, if_true]
    rfl
  refine ⟨?_, ?_, ?_, ?_, ?_, hnoop, ?_, ?_, ?_⟩
  · intro tt r old h
    exact execute_trigger_no_trigger h r old
  · intro r h
    have hpass := execute_trigger_no_trigger h r none
    simp only [CRUDManager.insert, hpass]
    rfl
  · intro r h i db2 t hdb ht hid
    obtain ⟨t', row, ht', hrid, hrow, hdb2⟩ := dbInsert_ok_row hdb
    rw [ht] at ht'
    rw [Option.some.injEq] at ht'
    subst ht'
    refine ⟨{ t with rows := t.rows ++ [row], seq := max t.seq i }, row,
      ?_, rfl, ?_, ?_⟩
    · rw [hdb2, alGet_alSet_self]
    · exact buildRow_id t.columns row hrow hid
    · intro k v hk hkid
      have hkcol : k ∈ t.columns.map Column.name := by
        unfold dbInsert at hdb
        simp only [ht] at hdb
        split at hdb
        · exact absurd hdb (by simp)
        · rename_i hfind
          have hmemk : k ∈ recKeys r := by
            simp only [recKeys, List.mem_map]
            exact ⟨(k, v), alGet_mem hk, rfl⟩
          have hnone := List.find?_eq_none.mp hfind k hmemk
          simp only [Bool.not_eq_true, Bool.not_eq_false] at hnone
          unfold columnNames at hnone
          simpa using hnone
      exact buildRow_agrees t.columns row hrow k v hk hkid hkcol
  · intro rid upd now g h hget hgs
    have hpass := execute_trigger_no_trigger h
      (alSet (recUpdate (g.record.getD []) upd) "updated_at" (Value.vstr now))
      (some (g.record.getD []))
    simp only [CRUDManager.update, hget, hgs, hpass]
    rfl
  · intro rid g h hget hgs
    have hpass := execute_trigger_no_trigger h
      (g.record.getD []) (some (g.record.getD []))
    simp only [CRUDManager.delete, hget, hgs, hpass]
    rfl
  · intro r
    simp only [CRUDManager.insert, hnoop]
    rfl
  · intro rid upd now g hget hgs
    have hget2 : ({ c with trigger_manager :=
        (c.trigger_manager.register_trigger table .on_update (.ok [])).2 }
        : CRUDManager).get_by_id table rid = .ok g := hget
    simp only [CRUDManager.update, hget2, hgs, hnoop]
    rfl
  · intro rid g hget hgs
    have hget2 : ({ c with trigger_manager :=
        (c.trigger_manager.register_trigger table .on_delete (.ok [])).2 }
        : CRUDManager).get_by_id table rid = .ok g := hget
    simp only [CRUDManager.delete, hget2, hgs, hnoop]
    rfl

/-- Witness for C7 at the empty-registry pipeline over dbA: insert,
update and delete of the stored customer, with and without a registered
no-op trigger. -/
theorem no_trigger_insert_verbatim_witness :
    (cNoTrig.trigger_manager.has_trigger "customers" .on_insert = false ∧
     cNoTrig.trigger_manager.has_trigger "customers" .on_update = false ∧
     cNoTrig.trigger_manager.has_trigger "customers" .on_delete = false ∧
     cNoTrig.get_by_id "customers" 1 =
       .ok { success := true, record := some row1 }) ∧
    (cNoTrig.trigger_manager.execute_trigger "customers" .on_update
        [("name", Value.vstr "X")] (some row1) =
      { success := true, record := .dict [("name", Value.vstr "X")],
        executed := false } ∧
     cNoTrig.insert "customers" [("name", Value.vstr "X")] =
      (match dbInsert cNoTrig.db "customers" [("name", Value.vstr "X")] with
       | .ok (i, db2) =>
           .ok ({ success := true, id := some i,
                  record := some (alSet [("name", Value.vstr "X")] "id"
                    (Value.vint i)),
                  trigger_executed := some false },
                { cNoTrig with db := db2 })
       | .error e => .ok ({ success := false, errors := [e] }, cNoTrig)) ∧
    (∀ (i : Int) (db2 : DB) (t : Table),
      dbInsert cNoTrig.db "customers" [("name", Value.vstr "X")] = .ok (i, db2) →
      alGet cNoTrig.db "customers" = some t → "id" ∈ columnNames t →
      ∃ t2 row, alGet db2 "customers" = some t2 ∧
        t2.rows = t.rows ++ [row] ∧
        alGet row "id" = some (Value.vint i) ∧
        (∀ (k : String) (v : Value),
          alGet [("name", Value.vstr "X")] k = some v → ¬ k = "id" →
          alGet row k = some v)) ∧
    cNoTrig.update "customers" 1 [("email", Value.vstr "n@x.com")] "T1" =
      (match dbUpdate cNoTrig.db "customers"
          (CRUDManager.computeFieldsToUpdate
            (alSet (recUpdate row1 [("email", Value.vstr "n@x.com")])
              "updated_at" (Value.vstr "T1")) row1) 1 with
       | .ok db2 =>
           .ok ({ success := true,
                  record := some (alSet
                    (recUpdate row1 [("email", Value.vstr "n@x.com")])
                    "updated_at" (Value.vstr "T1")),
                  trigger_executed := some false },
                { cNoTrig with db := db2 })
       | .error e => .ok ({ success := false, errors := [e] }, cNoTrig)) ∧
    cNoTrig.delete "customers" 1 =
      (match dbDelete cNoTrig.db "customers" 1 with
       | .ok db2 =>
           .ok ({ success := true, deleted_record := some row1,
                  trigger_executed := some false },
                { cNoTrig with db := db2 })
       | .error e => .ok ({ success := false, errors := [e] }, cNoTrig)) ∧
    ({ cNoTrig with trigger_manager :=
        (cNoTrig.trigger_manager.register_trigger "customers" .on_delete
          (.ok [])).2 } : CRUDManager).trigger_manager.execute_trigger
        "customers" .on_delete row1 (some row1) =
      { success := true, record := .dict row1, executed := true } ∧
    ({ cNoTrig with trigger_manager :=
        (cNoTrig.trigger_manager.register_trigger "customers" .on_insert
          (.ok [])).2 } : CRUDManager).insert "customers"
        [("name", Value.vstr "X")] =
      (match dbInsert cNoTrig.db "customers" [("name", Value.vstr "X")] with
       | .ok (i, db2) =>
           .ok ({ success := true, id := some i,
                  record := some (alSet [("name", Value.vstr "X")] "id"
                    (Value.vint i)),
                  trigger_executed := some true },
                { cNoTrig with
                    trigger_manager :=
                      (cNoTrig.trigger_manager.register_trigger "customers"
                        .on_insert (.ok [])).2,
                    db := db2 })
       | .error e =>
           .ok ({ success := false, errors := [e] },
                { cNoTrig with trigger_manager :=
                    (cNoTrig.trigger_manager.register_trigger "customers"
                      .on_insert (.ok [])).2 })) ∧
    ({ cNoTrig with trigger_manager :=
        (cNoTrig.trigger_manager.register_trigger "customers" .on_update
          (.ok [])).2 } : CRUDManager).update "customers" 1
        [("email", Value.vstr "n@x.com")] "T1" =
      (match dbUpdate cNoTrig.db "customers"
          (CRUDManager.computeFieldsToUpdate
            (alSet (recUpdate row1 [("email", Value.vstr "n@x.com")])
              "updated_at" (Value.vstr "T1")) row1) 1 with
       | .ok db2 =>
           .ok ({ success := true,
                  record := some (alSet
                    (recUpdate row1 [("email", Value.vstr "n@x.com")])
                    "updated_at" (Value.vstr "T1")),
                  trigger_executed := some true },
                { cNoTrig with
                    trigger_manager :=
                      (cNoTrig.trigger_manager.register_trigger "customers"
                        .on_update (.ok [])).2,
                    db := db2 })
       | .error e =>
           .ok ({ success := false, errors := [e] },
                { cNoTrig with trigger_manager :=
                    (cNoTrig.trigger_manager.register_trigger "customers"
                      .on_update (.ok [])).2 })) ∧
    ({ cNoTrig with trigger_manager :=
        (cNoTrig.trigger_manager.register_trigger "customers" .on_delete
          (.ok [])).2 } : CRUDManager).delete "customers" 1 =
      (match dbDelete cNoTrig.db "customers" 1 with
       | .ok db2 =>
           .ok ({ success := true, deleted_record := some row1,
                  trigger_executed := some true },
                { cNoTrig with
                    trigger_manager :=
                      (cNoTrig.trigger_manager.register_trigger "customers"
                        .on_delete (.ok [])).2,
                    db := db2 })
       | .error e =>
           .ok ({ success := false, errors := [e] },
                { cNoTrig with trigger_manager :=
                    (cNoTrig.trigger_manager.register_trigger "customers"
                      .on_delete (.ok [])).2 }))) := by
  obtain ⟨h1, h2, h3, h4, h5, h6, h7, h8, h9⟩ :=
    no_trigger_insert_verbatim cNoTrig "customers"
  refine ⟨⟨by rfl, by rfl, by rfl, by rfl⟩,
    ?_, ?_, ?_, ?_, ?_, ?_, ?_, ?_, ?_⟩
  · exact h1 .on_update [("name", Value.vstr "X")] (some row1) (by rfl)
  · exact h2 [("name", Value.vstr "X")] (by rfl)
  · exact h3 [("name", Value.vstr "X")] (by rfl)
  · exact h4 1 [("email", Value.vstr "n@x.com")] "T1"
      { success := true, record := some row1 } (by rfl) (by rfl) (by rfl)
  · exact h5 1 { success := true, record := some row1 }
      (by rfl) (by rfl) (by rfl)
  · exact h6 .on_delete row1 (some row1)
  · exact h7 [("name", Value.vstr "X")]
  · exact h8 1 [("email", Value.vstr "n@x.com")] "T1"
      { success := true, record := some row1 } (by rfl) (by rfl)
  · exact h9 1 { success := true, record := some row1 } (by rfl) (by rfl)

/-! Facts about the metadata reload, used by the idempotence claim. -/

theorem register_self {tm : TriggerManager} {name : String} {tt : TriggerType}
    {code : Source} (hv : (CodeExecutor.validate_code code).valid = true)
    (hl : regLookup tm.triggers name tt = some code) :
    tm.register_trigger name tt code = (.ok (), tm) := by
  obtain ⟨tmap, htmap, hcode⟩ :
      ∃ tmap, alGet tm.triggers name = some tmap ∧ alGet tmap tt = some code := by
    unfold regLookup at hl
    revert hl
    cases hg : alGet tm.triggers name with
    | none => intro hl; simp at hl
    | some tmap => intro hl; exact ⟨tmap, rfl, hl⟩
  have hhas : alHas tm.triggers name = true := by
    unfold alHas
    rw [htmap]
    rfl
  rw [register_valid_ok tm name tt code hv]
  rw [Prod.mk.injEq]
  refine ⟨rfl, ?_⟩
  simp only [hhas, if_true, htmap, Option.getD_some, alSet_self hcode,
    alSet_self htmap]

theorem loadOne_ok {tm tm' : TriggerManager} {name : String}
    {tt : TriggerType} {codeOpt : Option Source}
    (h : loadOne tm name tt codeOpt = (.ok (), tm')) :
    (∀ code, codeOpt = some code →
      (CodeExecutor.validate_code code).valid = true) ∧
    (∀ (t' : String) (k' : TriggerType), regLookup tm'.triggers t' k' =
      (match codeOpt with
       | some code =>
          if t' = name ∧ k' = tt then some code
          else regLookup tm.triggers t' k'
       | none => regLookup tm.triggers t' k')) := by
  cases codeOpt with
  | none =>
    unfold loadOne at h
    rw [Prod.mk.injEq] at h
    obtain ⟨-, h2⟩ := h
    subst h2
    constructor
    · intro code hc
      cases hc
    · intro t' k'
      rfl
  | some code =>
    have hreg : tm.register_trigger name tt code = (.ok (), tm') := h
    have hv : (CodeExecutor.validate_code code).valid = true := by
      by_contra hnv
      rw [Bool.not_eq_true] at hnv
      simp only [TriggerManager.register_trigger, hnv] at hreg
      simp at hreg
    constructor
    · intro c hc
      rw [Option.some.injEq] at hc
      rw [← hc]
      exact hv
    · intro t' k'
      have hh := regLookup_after_register tm name tt code hv t' k'
      rw [show (tm.register_trigger name tt code).2 = tm' from
        congrArg Prod.snd hreg] at hh
      simpa using hh

theorem loadOne_ok_preserve {tm tm' : TriggerManager} {name : String}
    {tt : TriggerType} {codeOpt : Option Source}
    (h : loadOne tm name tt codeOpt = (.ok (), tm'))
    (t' : String) (k' : TriggerType) (hne : ¬ (t' = name ∧ k' = tt)) :
    regLookup tm'.triggers t' k' = regLookup tm.triggers t' k' := by
  have hh := (loadOne_ok h).2 t' k'
  cases codeOpt with
  | none => exact hh
  | some code => simpa [hne] using hh

theorem loadOne_ok_self {tm tm' : TriggerManager} {name : String}
    {tt : TriggerType} {code : Source}
    (h : loadOne tm name tt (some code) = (.ok (), tm')) :
    regLookup tm'.triggers name tt = some code := by
  have hh := (loadOne_ok h).2 name tt
  simpa using hh

theorem loadOne_self {tm : TriggerManager} {name : String} {tt : TriggerType}
    {codeOpt : Option Source}
    (hv : ∀ code, codeOpt = some code →
      (CodeExecutor.validate_code code).valid = true)
    (hl : ∀ code, codeOpt = some code →
      regLookup tm.triggers name tt = some code) :
    loadOne tm name tt codeOpt = (.ok (), tm) := by
  cases codeOpt with
  | none => rfl
  | some code => exact register_self (hv code rfl) (hl code rfl)

theorem loadTable_ok {tm tm1 : TriggerManager} {name : String} {t : Table}
    (h : loadTable tm name t = (.ok (), tm1)) :
    ∃ tma tmb,
      loadOne tm name .on_insert t.on_insert_trigger = (.ok (), tma) ∧
      loadOne tma name .on_update t.on_update_trigger = (.ok (), tmb) ∧
      loadOne tmb name .on_delete t.on_delete_trigger = (.ok (), tm1) := by
  unfold loadTable at h
  split at h
  · simp at h
  · rename_i tma heqa
    split at h
    · simp at h
    · rename_i tmb heqb
      exact ⟨tma, tmb, heqa, heqb, h⟩

theorem loadTable_ok_lookup {tm tm1 : TriggerManager} {name : String}
    {t : Table} (h : loadTable tm name t = (.ok (), tm1)) :
    (∀ k : TriggerType, regLookup tm1.triggers name k =
      (match tblTrig t k with
       | some code => some code
       | none => regLookup tm.triggers name k)) ∧
    (∀ (t' : String) (k' : TriggerType), ¬ t' = name →
      regLookup tm1.triggers t' k' = regLookup tm.triggers t' k') ∧
    (∀ (k : TriggerType) (code : Source), tblTrig t k = some code →
      (CodeExecutor.validate_code code).valid = true) := by
  obtain ⟨tma, tmb, h1, h2, h3⟩ := loadTable_ok h
  refine ⟨?_, ?_, ?_⟩
  · intro k
    cases k with
    | on_insert =>
      rw [loadOne_ok_preserve h3 name .on_insert (by simp),
          loadOne_ok_preserve h2 name .on_insert (by simp)]
      cases hoi : t.on_insert_trigger with
      | none =>
        have hh := (loadOne_ok (hoi ▸ h1)).2 name .on_insert
        simpa [tblTrig, hoi] using hh
      | some code =>
        have hh := loadOne_ok_self (hoi ▸ h1)
        simpa [tblTrig, hoi] using hh
    | on_update =>
      rw [loadOne_ok_preserve h3 name .on_update (by simp)]
      cases hou : t.on_update_trigger with
      | none =>
        have hh := (loadOne_ok (hou ▸ h2)).2 name .on_update
        rw [loadOne_ok_preserve h1 name .on_update (by simp)] at hh
        simpa [tblTrig, hou] using hh
      | some code =>
        have hh := loadOne_ok_self (hou ▸ h2)
        simpa [tblTrig, hou] using hh
    | on_delete =>
      cases hod : t.on_delete_trigger with
      | none =>
        have hh := (loadOne_ok (hod ▸ h3)).2 name .on_delete
        rw [loadOne_ok_preserve h2 name .on_delete (by simp)] at hh
        rw [loadOne_ok_preserve h1 name .on_delete (by simp)] at hh
        simpa [tblTrig, hod] using hh
      | some code =>
        have hh := loadOne_ok_self (hod ▸ h3)
        simpa [tblTrig, hod] using hh
  · intro t' k' hne
    rw [loadOne_ok_preserve h3 t' k' (by simp [hne]),
        loadOne_ok_preserve h2 t' k' (by simp [hne]),
        loadOne_ok_preserve h1 t' k' (by simp [hne])]
  · intro k code hc
    cases k with
    | on_insert => exact (loadOne_ok h1).1 code hc
    | on_update => exact (loadOne_ok h2).1 code hc
    | on_delete => exact (loadOne_ok h3).1 code hc

theorem loadTable_self {tm : TriggerManager} {name : String} {t : Table}
    (hval : ∀ (k : TriggerType) (code : Source), tblTrig t k = some code →
      (CodeExecutor.validate_code code).valid = true)
    (hlk : ∀ (k : TriggerType) (code : Source), tblTrig t k = some code →
      regLookup tm.triggers name k = some code) :
    loadTable tm name t = (.ok (), tm) := by
  have e1 : loadOne tm name .on_insert t.on_insert_trigger = (.ok (), tm) :=
    loadOne_self (fun code hc => hval .on_insert code hc)
      (fun code hc => hlk .on_insert code hc)
  have e2 : loadOne tm name .on_update t.on_update_trigger = (.ok (), tm) :=
    loadOne_self (fun code hc => hval .on_update code hc)
      (fun code hc => hlk .on_update code hc)
  have e3 : loadOne tm name .on_delete t.on_delete_trigger = (.ok (), tm) :=
    loadOne_self (fun code hc => hval .on_delete code hc)
      (fun code hc => hlk .on_delete code hc)
  unfold loadTable
  simp only [e1, e2, e3]

theorem load_preserves_other (db : DB) :
    ∀ {tm tm' : TriggerManager},
      loadTriggersFromMetadata db tm = (.ok (), tm') →
      ∀ t', ¬ t' ∈ db.map Prod.fst → ∀ k',
        regLookup tm'.triggers t' k' = regLookup tm.triggers t' k' := by
  induction db with
  | nil =>
    intro tm tm' h t' hmem k'
    unfold loadTriggersFromMetadata at h
    rw [Prod.mk.injEq] at h
    rw [← h.2]
  | cons entry rest ih =>
    obtain ⟨name, t⟩ := entry
    intro tm tm' h t' hmem k'
    simp only [loadTriggersFromMetadata] at h
    split at h
    · simp at h
    · rename_i tm1 heq
      simp only [List.map_cons, List.mem_cons] at hmem
      have hmem1 : ¬ t' = name := fun hh => hmem (Or.inl hh)
      have hmem2 : ¬ t' ∈ rest.map Prod.fst := fun hh => hmem (Or.inr hh)
      rw [ih h t' hmem2 k']
      exact (loadTable_ok_lookup heq).2.1 t' k' hmem1

theorem load_idempotent (db : DB) :
    ∀ {tm tm' : TriggerManager},
      (db.map Prod.fst).Nodup →
      loadTriggersFromMetadata db tm = (.ok (), tm') →
      loadTriggersFromMetadata db tm' = (.ok (), tm') := by
  induction db with
  | nil =>
    intro tm tm' _ h
    unfold loadTriggersFromMetadata at h
    rw [Prod.mk.injEq] at h
    obtain ⟨-, h2⟩ := h
    subst h2
    rfl
  | cons entry rest ih =>
    obtain ⟨name, t⟩ := entry
    intro tm tm' hnd h
    simp only [loadTriggersFromMetadata] at h ⊢
    split at h
    · simp at h
    · rename_i tm1 heq
      simp only [List.map_cons, List.nodup_cons] at hnd
      obtain ⟨hname, hndrest⟩ := hnd
      have hchar := loadTable_ok_lookup heq
      have hpres : ∀ k', regLookup tm'.triggers name k' =
          regLookup tm1.triggers name k' :=
        fun k' => load_preserves_other rest h name hname k'
      have hlk : ∀ (k : TriggerType) (code : Source), tblTrig t k = some code →
          regLookup tm'.triggers name k = some code := by
        intro k code hc
        rw [hpres k, hchar.1 k, hc]
      have hself : loadTable tm' name t = (.ok (), tm') :=
        loadTable_self hchar.2.2 hlk
      simp only [hself]
      exact ih hndrest h

/-- C8: reload_triggers is idempotent: with the stored metadata fixed
(and its table names distinct, which the metadata primary key
guarantees), calling reload_triggers twice in a row yields exactly the
same manager state — and hence the same lookup result for every
(table, event kind) pair — as calling it once. -/
theorem reload_triggers_idempotent
    (c c' : CRUDManager) (hnd : (c.db.map Prod.fst).Nodup)
    (h : c.reload_triggers = (.ok (), c')) :
    c'.reload_triggers = (.ok (), c') := by
  unfold CRUDManager.reload_triggers at h ⊢
  rw [Prod.mk.injEq] at h
  obtain ⟨h1, h2⟩ := h
  have hload : loadTriggersFromMetadata c.db c.trigger_manager =
      (.ok (), (loadTriggersFromMetadata c.db c.trigger_manager).2) := by
    rw [← h1]
  have hidem := load_idempotent c.db hnd hload
  subst h2
  simp only [hidem]

/-- Witness for C8 at the one-table metadata state dbMeta loaded into an
initially empty registry. -/
theorem reload_triggers_idempotent_witness :
    ((cMeta.db.map Prod.fst).Nodup ∧
     cMeta.reload_triggers = (.ok (), (cMeta.reload_triggers).2)) ∧
    ((cMeta.reload_triggers).2).reload_triggers =
      (.ok (), (cMeta.reload_triggers).2) :=
  ⟨⟨by decide, by rfl⟩,
   reload_triggers_idempotent cMeta (cMeta.reload_triggers).2
     (by decide) (by rfl)⟩

/-! Facts about snippet execution used by the old-record isolation
claim. -/

theorem execStmts_append (xs : List Stmt) :
    ∀ (ys : List Stmt) (env : Ctx),
      execStmts env (xs ++ ys) =
        (match execStmts env xs with
         | .error e => .error e
         | .ok env' => execStmts env' ys) := by
  induction xs with
  | nil =>
    intro ys env
    rfl
  | cons s rest ih =>
    intro ys env
    simp only [List.cons_append, execStmts]
    cases hs : execStmt env s with
    | error e => rfl
    | ok env' => exact ih ys env'

theorem execStmts_old_record_dict (stmts : List Stmt) :
    ∀ (env env' : Ctx) (d : Record),
      assignsName stmts "old_record" = false →
      alGet env "old_record" = some (PyVal.dict d) →
      execStmts env stmts = .ok env' →
      ∃ d', alGet env' "old_record" = some (PyVal.dict d') := by
  induction stmts with
  | nil =>
    intro env env' d _ hd h
    simp only [execStmts] at h
    rw [Except.ok.injEq] at h
    subst h
    exact ⟨d, hd⟩
  | cons s rest ih =>
    intro env env' d ha hd h
    simp only [assignsName, List.any_cons, Bool.or_eq_false_iff] at ha
    obtain ⟨ha1, ha2⟩ := ha
    simp only [execStmts] at h
    split at h
    · exact absurd h (by simp)
    · rename_i env1 hstep
      have hrest : assignsName rest "old_record" = false := ha2
      cases s with
      | assignName x e =>
        have hx : ¬ x = "old_record" := by
          simp only [beq_eq_false_iff_ne, ne_eq] at ha1
          exact ha1
        simp only [execStmt] at hstep
        split at hstep
        · exact absurd hstep (by simp)
        · rename_i v hv
          rw [Except.ok.injEq] at hstep
          subst hstep
          refine ih _ env' d hrest ?_ h
          rw [alGet_alSet]
          rw [if_neg hx]
          exact hd
      | assignItem x key e =>
        simp only [execStmt] at hstep
        split at hstep
        · exact absurd hstep (by simp)
        · rename_i v hv
          split at hstep
          · rename_i r hr
            split at hstep
            · rename_i sv
              rw [Except.ok.injEq] at hstep
              subst hstep
              by_cases hx : x = "old_record"
              · subst hx
                refine ih _ env' (alSet r key sv) hrest ?_ h
                rw [alGet_alSet_self]
              · refine ih _ env' d hrest ?_ h
                rw [alGet_alSet, if_neg hx]
                exact hd
            · exact absurd hstep (by simp)
          · exact absurd hstep (by simp)
          · exact absurd hstep (by simp)
      | importMod m =>
        simp only [execStmt] at hstep
        split at hstep
        · rw [Except.ok.injEq] at hstep
          subst hstep
          exact ih _ env' d hrest hd h
        · exact absurd hstep (by simp)
      | raiseMsg msg =>
        simp only [execStmt] at hstep
        exact absurd hstep (by simp)

theorem alGet_resultContext_alSet (k : String) (x : PyVal) (k' : String)
    (hne : ¬ k = k') :
    ∀ (env : Ctx),
      alGet (resultContext (alSet env k x)) k' =
        alGet (resultContext env) k' := by
  intro env
  induction env with
  | nil =>
    simp only [alSet, resultContext, List.filter]
    split
    · simp [alGet, hne]
    · simp [alGet]
  | cons hd tl ih =>
    obtain ⟨k0, v0⟩ := hd
    by_cases hk0 : k0 = k
    · subst hk0
      simp only [alSet, if_pos rfl, resultContext, List.filter]
      split
      · simp [alGet, hne]
      · rfl
    · simp only [alSet, if_neg hk0, resultContext, List.filter]
      simp only [resultContext] at ih
      split
      · by_cases hk0' : k0 = k'
        · simp [alGet, hk0']
        · simp only [alGet, if_neg hk0']
          exact ih
      · exact ih

theorem execute_mut_old_record (stmts : List Stmt) (key : String) (v : Value)
    (ctx : Ctx) (d : Record)
    (hd : alGet ctx "old_record" = some (PyVal.dict d))
    (ha : assignsName stmts "old_record" = false) :
    (CodeExecutor.execute
        (.ok (stmts ++ [Stmt.assignItem "old_record" key (Expr.lit v)])) ctx).success =
      (CodeExecutor.execute (.ok stmts) ctx).success ∧
    (CodeExecutor.execute
        (.ok (stmts ++ [Stmt.assignItem "old_record" key (Expr.lit v)])) ctx).errors =
      (CodeExecutor.execute (.ok stmts) ctx).errors ∧
    alGet (CodeExecutor.execute
        (.ok (stmts ++ [Stmt.assignItem "old_record" key (Expr.lit v)])) ctx).context
        "record" =
      alGet (CodeExecutor.execute (.ok stmts) ctx).context "record" := by
  simp only [CodeExecutor.execute]
  cases hex : execStmts ctx stmts with
  | error e =>
    rw [execStmts_append stmts [Stmt.assignItem "old_record" key (Expr.lit v)] ctx,
      hex]
    exact ⟨rfl, rfl, rfl⟩
  | ok env =>
    obtain ⟨d', hd'⟩ := execStmts_old_record_dict stmts ctx env d ha hd hex
    have hmut : execStmts ctx
        (stmts ++ [Stmt.assignItem "old_record" key (Expr.lit v)]) =
        .ok (alSet env "old_record" (PyVal.dict (alSet d' key v))) := by
      rw [execStmts_append stmts [Stmt.assignItem "old_record" key (Expr.lit v)] ctx,
        hex]
      simp only [execStmts, execStmt, evalExpr]
      rw [hd']
    rw [hmut]
    exact ⟨rfl, rfl,
      alGet_resultContext_alSet "old_record" (PyVal.dict (alSet d' key v))
        "record" (by decide) env⟩

theorem execute_trigger_append_old_mut (table : String) (tt : TriggerType)
    (r o : Record) (stmts : List Stmt) (key : String) (v : Value)
    (ho : o.isEmpty = false)
    (ha : assignsName stmts "old_record" = false) :
    TriggerManager.execute_trigger
        (tmOf table tt (.ok (stmts ++ [Stmt.assignItem "old_record" key (Expr.lit v)])))
        table tt r (some o) =
      TriggerManager.execute_trigger (tmOf table tt (.ok stmts)) table tt r
        (some o) := by
  have hga1 : alGet (tmOf table tt
      (.ok (stmts ++ [Stmt.assignItem "old_record" key (Expr.lit v)]))).triggers
      table = some [(tt, Source.ok
        (stmts ++ [Stmt.assignItem "old_record" key (Expr.lit v)]))] := by
    simp [tmOf, alGet]
  have hgb1 : alGet [(tt, Source.ok
      (stmts ++ [Stmt.assignItem "old_record" key (Expr.lit v)]))] tt =
      some (Source.ok
        (stmts ++ [Stmt.assignItem "old_record" key (Expr.lit v)])) := by
    simp [alGet]
  have hga2 : alGet (tmOf table tt (.ok stmts)).triggers table =
      some [(tt, Source.ok stmts)] := by
    simp [tmOf, alGet]
  have hgb2 : alGet [(tt, Source.ok stmts)] tt = some (Source.ok stmts) := by
    simp [alGet]
  rw [execute_trigger_found hga1 hgb1 r (some o),
    execute_trigger_found hga2 hgb2 r (some o)]
  have hctx : alGet (triggerContext r (some o)) "old_record" =
      some (PyVal.dict o) := by
    simp [triggerContext, alGet, oldRecordBinding, ho]
  obtain ⟨hsucc, herr, hrec⟩ :=
    execute_mut_old_record stmts key v (triggerContext r (some o)) o hctx ha
  have hext : extractRecord (CodeExecutor.execute
      (.ok (stmts ++ [Stmt.assignItem "old_record" key (Expr.lit v)]))
      (triggerContext r (some o))) r =
      extractRecord (CodeExecutor.execute (.ok stmts)
        (triggerContext r (some o))) r := by
    unfold extractRecord
    rw [hrec]
  rw [hsucc, herr, hext]

theorem get_by_id_row_nonempty {c : CRUDManager} {table : String} {rid : Int}
    {g : CRUDManager.GetResult} (h : c.get_by_id table rid = .ok g)
    (hs : g.success = true) :
    ∃ row, g.record = some row ∧ row.isEmpty = false := by
  unfold CRUDManager.get_by_id at h
  split at h
  · simp at h
  · rename_i t ht
    split at h
    · rename_i row hfind
      rw [Except.ok.injEq] at h
      refine ⟨row, ?_, ?_⟩
      · rw [← h]
      · have hp := List.find?_some hfind
        cases row with
        | nil => simp [alGet] at hp
        | cons a l => rfl
    · rw [Except.ok.injEq] at h
      rw [← h] at hs
      simp at hs

/-- C9: the snippet receives a private copy of the record and of the
old-record snapshot, so a mutation the snippet performs on old_record
has no observable effect on the pipeline: appending to any snippet an
assignment into old_record leaves the trigger result identical, and an
update call through a registry carrying the mutating snippet returns
the same result and leaves the same database as one carrying the
snippet without the mutation — the update delta is still computed
against the fetched old row. -/
theorem old_record_mutation_unobservable
    (table : String) (tt : TriggerType) (r o : Record) (stmts : List Stmt)
    (key : String) (v : Value)
    (ho : o.isEmpty = false)
    (ha : assignsName stmts "old_record" = false) :
    TriggerManager.execute_trigger
        (tmOf table tt
          (.ok (stmts ++ [Stmt.assignItem "old_record" key (Expr.lit v)])))
        table tt r (some o) =
      TriggerManager.execute_trigger (tmOf table tt (.ok stmts)) table tt r
        (some o) ∧
    (∀ (db : DB) (rid : Int) (upd : Record) (now : String),
      (CRUDManager.update
          ⟨db, tmOf table .on_update
            (.ok (stmts ++ [Stmt.assignItem "old_record" key (Expr.lit v)]))⟩
          table rid upd now).map (fun p => (p.1, p.2.db)) =
      (CRUDManager.update ⟨db, tmOf table .on_update (.ok stmts)⟩
          table rid upd now).map (fun p => (p.1, p.2.db))) := by
  constructor
  · exact execute_trigger_append_old_mut table tt r o stmts key v ho ha
  · intro db rid upd now
    simp only [CRUDManager.update]
    have hgg : CRUDManager.get_by_id
        ⟨db, tmOf table .on_update
          (.ok (stmts ++ [Stmt.assignItem "old_record" key (Expr.lit v)]))⟩
        table rid =
        CRUDManager.get_by_id ⟨db, tmOf table .on_update (.ok stmts)⟩
          table rid := rfl
    rw [hgg]
    cases hg : CRUDManager.get_by_id ⟨db, tmOf table .on_update (.ok stmts)⟩
        table rid with
    | error e => rfl
    | ok g =>
      by_cases hgs : g.success
      · obtain ⟨row, hrow, hner⟩ := get_by_id_row_nonempty hg hgs
        have hoe : (g.record.getD []).isEmpty = false := by
          rw [hrow]
          exact hner
        have htr := execute_trigger_append_old_mut table .on_update
          (alSet (recUpdate (g.record.getD []) upd) "updated_at"
            (Value.vstr now))
          (g.record.getD []) stmts key v hoe ha
        simp only [hgs, Bool.not_true, Bool.false_eq_true, if_false, htr]
        by_cases hts : (TriggerManager.execute_trigger
            (tmOf table .on_update (.ok stmts)) table .on_update
            (alSet (recUpdate (g.record.getD []) upd) "updated_at"
              (Value.vstr now))
            (some (g.record.getD []))).success
        · simp only [hts, Bool.not_true, Bool.false_eq_true, if_false]
          cases hrec : (TriggerManager.execute_trigger
              (tmOf table .on_update (.ok stmts)) table .on_update
              (alSet (recUpdate (g.record.getD []) upd) "updated_at"
                (Value.vstr now))
              (some (g.record.getD []))).record with
          | scalar s => rfl
          | dict mr =>
            split
            · rfl
            · split <;> rfl
        · simp only [Bool.not_eq_true] at hts
          simp only [hts, Bool.not_false, if_true]
          rfl
      · simp only [Bool.not_eq_true] at hgs
        simp only [hgs, Bool.not_false, if_true]
        rfl

/-- Witness for C9: a no-op snippet extended with an assignment into
old_record produces the identical trigger result, and the update
through it over dbA matches the clean one. -/
theorem old_record_mutation_unobservable_witness :
    (row1.isEmpty = false ∧ assignsName [] "old_record" = false) ∧
    TriggerManager.execute_trigger
        (tmOf "customers" .on_update
          (.ok ([] ++ [Stmt.assignItem "old_record" "email"
            (Expr.lit (Value.vstr "hacked"))])))
        "customers" .on_update [("name", Value.vstr "X")] (some row1) =
      TriggerManager.execute_trigger (tmOf "customers" .on_update (.ok []))
        "customers" .on_update [("name", Value.vstr "X")] (some row1) ∧
    (CRUDManager.update
        ⟨dbA, tmOf "customers" .on_update
          (.ok ([] ++ [Stmt.assignItem "old_record" "email"
            (Expr.lit (Value.vstr "hacked"))]))⟩
        "customers" 1 [("email", Value.vstr "n@x.com")] "T1").map
        (fun p => (p.1, p.2.db)) =
      (CRUDManager.update ⟨dbA, tmOf "customers" .on_update (.ok [])⟩
        "customers" 1 [("email", Value.vstr "n@x.com")] "T1").map
        (fun p => (p.1, p.2.db)) :=
  ⟨⟨by rfl, by rfl⟩,
   (old_record_mutation_unobservable "customers" .on_update
      [("name", Value.vstr "X")] row1 [] "email" (Value.vstr "hacked")
      (by rfl) (by rfl)).1,
   (old_record_mutation_unobservable "customers" .on_update
      [("name", Value.vstr "X")] row1 [] "email" (Value.vstr "hacked")
      (by rfl) (by rfl)).2 dbA 1 [("email", Value.vstr "n@x.com")] "T1"⟩

/-- C10: for every successful delete the record returned to the caller
as the deleted record is the row as fetched from storage before the
trigger ran — field mutations the ON_DELETE snippet makes to its record
binding are never consulted — and a delete trigger can only veto the
deletion by failing, in which case the call returns the failure and the
manager, rows included, is exactly as before. -/
theorem delete_returns_fetched_snapshot
    (c : CRUDManager) (table : String) (rid : Int)
    (g : CRUDManager.GetResult) (o : Record)
    (hget : c.get_by_id table rid = .ok g)
    (hgs : g.success = true) (hrec : g.record = some o) :
    (∀ (res : CRUDManager.DeleteResult) (c' : CRUDManager),
      c.delete table rid = .ok (res, c') → res.success = true →
      res.deleted_record = some o) ∧
    ((c.trigger_manager.execute_trigger table .on_delete o (some o)).success
        = false →
      c.delete table rid =
        .ok ({ success := false,
               errors := (c.trigger_manager.execute_trigger table .on_delete o
                 (some o)).errors }, c)) := by
  have hgd : g.record.getD [] = o := by
    rw [hrec]
    rfl
  constructor
  · intro res c' hdel hrs
    simp only [CRUDManager.delete, hget] at hdel
    simp only [hgs, Bool.not_true, Bool.false_eq_true, if_false] at hdel
    split at hdel
    · rw [Except.ok.injEq, Prod.mk.injEq] at hdel
      obtain ⟨h1, -⟩ := hdel
      rw [← h1] at hrs
      simp at hrs
    · split at hdel
      · rw [Except.ok.injEq, Prod.mk.injEq] at hdel
        obtain ⟨h1, -⟩ := hdel
        rw [← h1]
        simp [hgd]
      · rw [Except.ok.injEq, Prod.mk.injEq] at hdel
        obtain ⟨h1, -⟩ := hdel
        rw [← h1] at hrs
        simp at hrs
  · intro htf
    simp only [CRUDManager.delete, hget]
    simp only [hgs, Bool.not_true, Bool.false_eq_true, if_false]
    rw [hgd, htf]
    simp

/-- Witness for C10 at the record-mutating delete trigger of cDel: the
delete succeeds and still returns the fetched row unchanged. -/
theorem delete_returns_fetched_snapshot_witness :
    (cDel.get_by_id "customers" 1 =
       .ok { success := true, record := some row1 } ∧
     cDel.delete "customers" 1 = .ok (cDelRun.1, cDelRun.2) ∧
     cDelRun.1.success = true) ∧
    cDelRun.1.deleted_record = some row1 :=
  ⟨⟨by rfl, by rfl, by rfl⟩,
   (delete_returns_fetched_snapshot cDel "customers" 1
      { success := true, record := some row1 } row1
      (by rfl) (by rfl) (by rfl)).1
     cDelRun.1 cDelRun.2 (by rfl) (by rfl)⟩

end OpenErp
